import Mathlib

/-!
Verification of the clippy broker/turn-detector/codec against its
natural-language specification.

The development shallowly embeds the relevant Rust sources:
  * `src/broker/registry.rs` — `TurnRecord`, `TurnRingBuffer`
  * `src/broker/state.rs`    — `BrokerState` and its operations
  * `src/broker/handler.rs`  — the request dispatcher
  * `src/turn/ansi.rs`       — the ANSI stripper state machine
  * `src/turn/mod.rs`        — the turn detector state machine
  * `src/ipc/protocol.rs` and `src/ipc/codec.rs` — the wire protocol
    and the length-prefixed frame codec.

Byte strings (Rust `String` / `&str` / `Vec<u8>` values) are modelled as
`List Nat` of byte values.  Machine integers are modelled as `Nat`; the
truncating casts (`as u32`) present in the source are modelled with an
explicit `% 2^32`.
-/

namespace Clippy

/-! ## Byte-string constants

Each constant spells an ASCII protocol string as a list of byte values.
-/

/-- Byte string constant for the ASCII text unknown_type -/
def eUnknownType : List Nat := [117, 110, 107, 110, 111, 119, 110, 95, 116, 121, 112, 101]

/-- Byte string constant for the ASCII text invalid_hello_id -/
def eInvalidHelloId : List Nat := [105, 110, 118, 97, 108, 105, 100, 95, 104, 101, 108, 108, 111, 95, 105, 100]

/-- Byte string constant for the ASCII text version_mismatch -/
def eVersionMismatch : List Nat := [118, 101, 114, 115, 105, 111, 110, 95, 109, 105, 115, 109, 97, 116, 99, 104]

/-- Byte string constant for the ASCII text duplicate_session -/
def eDuplicateSession : List Nat := [100, 117, 112, 108, 105, 99, 97, 116, 101, 95, 115, 101, 115, 115, 105, 111, 110]

/-- Byte string constant for the ASCII text session_not_found -/
def eSessionNotFound : List Nat := [115, 101, 115, 115, 105, 111, 110, 95, 110, 111, 116, 95, 102, 111, 117, 110, 100]

/-- Byte string constant for the ASCII text session_disconnected -/
def eSessionDisconnected : List Nat := [115, 101, 115, 115, 105, 111, 110, 95, 100, 105, 115, 99, 111, 110, 110, 101, 99, 116, 101, 100]

/-- Byte string constant for the ASCII text no_turn -/
def eNoTurn : List Nat := [110, 111, 95, 116, 117, 114, 110]

/-- Byte string constant for the ASCII text turn_not_found -/
def eTurnNotFound : List Nat := [116, 117, 114, 110, 95, 110, 111, 116, 95, 102, 111, 117, 110, 100]

/-- Byte string constant for the ASCII text buffer_empty -/
def eBufferEmpty : List Nat := [98, 117, 102, 102, 101, 114, 95, 101, 109, 112, 116, 121]

/-- Byte string constant for the ASCII text unknown_sink -/
def eUnknownSink : List Nat := [117, 110, 107, 110, 111, 119, 110, 95, 115, 105, 110, 107]

/-- Byte string constant for the ASCII text clipboard_failed -/
def eClipboardFailed : List Nat := [99, 108, 105, 112, 98, 111, 97, 114, 100, 95, 102, 97, 105, 108, 101, 100]

/-- Byte string constant for the ASCII text file_write_failed -/
def eFileWriteFailed : List Nat := [102, 105, 108, 101, 95, 119, 114, 105, 116, 101, 95, 102, 97, 105, 108, 101, 100]

/-- Byte string constant for the ASCII text hello -/
def tagHello : List Nat := [104, 101, 108, 108, 111]

/-- Byte string constant for the ASCII text hello_ack -/
def tagHelloAck : List Nat := [104, 101, 108, 108, 111, 95, 97, 99, 107]

/-- Byte string constant for the ASCII text register -/
def tagRegister : List Nat := [114, 101, 103, 105, 115, 116, 101, 114]

/-- Byte string constant for the ASCII text deregister -/
def tagDeregister : List Nat := [100, 101, 114, 101, 103, 105, 115, 116, 101, 114]

/-- Byte string constant for the ASCII text turn_completed -/
def tagTurnCompleted : List Nat := [116, 117, 114, 110, 95, 99, 111, 109, 112, 108, 101, 116, 101, 100]

/-- Byte string constant for the ASCII text capture -/
def tagCapture : List Nat := [99, 97, 112, 116, 117, 114, 101]

/-- Byte string constant for the ASCII text paste -/
def tagPaste : List Nat := [112, 97, 115, 116, 101]

/-- Byte string constant for the ASCII text inject -/
def tagInject : List Nat := [105, 110, 106, 101, 99, 116]

/-- Byte string constant for the ASCII text list_sessions -/
def tagListSessions : List Nat := [108, 105, 115, 116, 95, 115, 101, 115, 115, 105, 111, 110, 115]

/-- Byte string constant for the ASCII text get_turn -/
def tagGetTurn : List Nat := [103, 101, 116, 95, 116, 117, 114, 110]

/-- Byte string constant for the ASCII text list_turns -/
def tagListTurns : List Nat := [108, 105, 115, 116, 95, 116, 117, 114, 110, 115]

/-- Byte string constant for the ASCII text capture_by_id -/
def tagCaptureById : List Nat := [99, 97, 112, 116, 117, 114, 101, 95, 98, 121, 95, 105, 100]

/-- Byte string constant for the ASCII text response -/
def tagResponse : List Nat := [114, 101, 115, 112, 111, 110, 115, 101]

/-- Byte string constant for the ASCII text type -/
def fType : List Nat := [116, 121, 112, 101]

/-- Byte string constant for the ASCII text id -/
def fId : List Nat := [105, 100]

/-- Byte string constant for the ASCII text version -/
def fVersion : List Nat := [118, 101, 114, 115, 105, 111, 110]

/-- Byte string constant for the ASCII text role -/
def fRole : List Nat := [114, 111, 108, 101]

/-- Byte string constant for the ASCII text status -/
def fStatus : List Nat := [115, 116, 97, 116, 117, 115]

/-- Byte string constant for the ASCII text error -/
def fError : List Nat := [101, 114, 114, 111, 114]

/-- Byte string constant for the ASCII text session -/
def fSession : List Nat := [115, 101, 115, 115, 105, 111, 110]

/-- Byte string constant for the ASCII text pid -/
def fPid : List Nat := [112, 105, 100]

/-- Byte string constant for the ASCII text pattern -/
def fPattern : List Nat := [112, 97, 116, 116, 101, 114, 110]

/-- Byte string constant for the ASCII text content -/
def fContent : List Nat := [99, 111, 110, 116, 101, 110, 116]

/-- Byte string constant for the ASCII text interrupted -/
def fInterrupted : List Nat := [105, 110, 116, 101, 114, 114, 117, 112, 116, 101, 100]

/-- Byte string constant for the ASCII text timestamp -/
def fTimestamp : List Nat := [116, 105, 109, 101, 115, 116, 97, 109, 112]

/-- Byte string constant for the ASCII text limit -/
def fLimit : List Nat := [108, 105, 109, 105, 116]

/-- Byte string constant for the ASCII text turn_id -/
def fTurnId : List Nat := [116, 117, 114, 110, 95, 105, 100]

/-- Byte string constant for the ASCII text size -/
def fSize : List Nat := [115, 105, 122, 101]

/-- Byte string constant for the ASCII text sessions -/
def fSessions : List Nat := [115, 101, 115, 115, 105, 111, 110, 115]

/-- Byte string constant for the ASCII text turns -/
def fTurns : List Nat := [116, 117, 114, 110, 115]

/-- Byte string constant for the ASCII text byte_length -/
def fByteLength : List Nat := [98, 121, 116, 101, 95, 108, 101, 110, 103, 116, 104]

/-- Byte string constant for the ASCII text truncated -/
def fTruncated : List Nat := [116, 114, 117, 110, 99, 97, 116, 101, 100]

/-- Byte string constant for the ASCII text has_turn -/
def fHasTurn : List Nat := [104, 97, 115, 95, 116, 117, 114, 110]

/-- Byte string constant for the ASCII text wrapper -/
def vWrapper : List Nat := [119, 114, 97, 112, 112, 101, 114]

/-- Byte string constant for the ASCII text client -/
def vClient : List Nat := [99, 108, 105, 101, 110, 116]

/-- Byte string constant for the ASCII text ok -/
def vOk : List Nat := [111, 107]

/-- Byte string constant for the ASCII text error -/
def vError : List Nat := [101, 114, 114, 111, 114]

/-- Byte string constant for the ASCII text clipboard -/
def sinkClipboard : List Nat := [99, 108, 105, 112, 98, 111, 97, 114, 100]

/-- Byte string constant for the ASCII text file -/
def sinkFile : List Nat := [102, 105, 108, 101]

/-- Byte string constant for the ASCII text inject -/
def sinkInject : List Nat := [105, 110, 106, 101, 99, 116]

/-! ## Decimal formatting of sequence numbers

Models Rust's `u64` `Display` implementation (used by
`format!("{}:{}", session_id, next_seq)` in `TurnRingBuffer::push`):
the decimal digits of `n`, most significant first, as ASCII bytes.
A fuel parameter keeps the recursion structural (the fuel `n + 1`
always suffices since `n / 10 < n` for `n ≥ 10`).
-/

/-- Fuelled decimal digit expansion: ASCII bytes of `n` in base ten. -/
def natBytesAux : Nat → Nat → List Nat
  | 0, _ => []
  | fuel + 1, n =>
    if n < 10 then [48 + n]
    else natBytesAux fuel (n / 10) ++ [48 + n % 10]

/-- ASCII decimal representation of `n` (Rust `u64` `Display`). -/
def natBytes (n : Nat) : List Nat := natBytesAux (n + 1) n

/-- The fuel is irrelevant once it exceeds the number of digits. -/
theorem natBytesAux_fuel (fuel fuel' n : Nat) (h : n < fuel) (h' : n < fuel') :
    natBytesAux fuel n = natBytesAux fuel' n := by
  induction fuel using Nat.strong_induction_on generalizing fuel' n with
  | _ fuel ih =>
    match fuel, fuel' with
    | f + 1, f' + 1 =>
      simp only [natBytesAux]
      by_cases hn : n < 10
      · simp [hn]
      · simp only [hn, if_false]
        have hd : n / 10 < n := Nat.div_lt_self (by omega) (by omega)
        rw [ih f (by omega) f' (n / 10) (by omega) (by omega)]

/-- Unfolding `natBytes` at a composite number. -/
theorem natBytes_ge (n : Nat) (h : 10 ≤ n) :
    natBytes n = natBytes (n / 10) ++ [48 + n % 10] := by
  have hd : n / 10 < n := Nat.div_lt_self (by omega) (by omega)
  have h1 : natBytes n = natBytesAux n (n / 10) ++ [48 + n % 10] := by
    simp only [natBytes, natBytesAux, Nat.not_lt.mpr h, if_false]
  rw [h1, natBytesAux_fuel n (n / 10 + 1) (n / 10) (by omega) (by omega)]
  rfl

/-- Decimal digits never contain the byte 58 (ASCII colon). -/
theorem colon_not_mem_natBytesAux (fuel n : Nat) : 58 ∉ natBytesAux fuel n := by
  induction fuel generalizing n with
  | zero => simp [natBytesAux]
  | succ fuel ih =>
    simp only [natBytesAux]
    by_cases hn : n < 10
    · simp only [hn, if_true, List.mem_singleton]
      omega
    · simp only [hn, if_false, List.mem_append, List.mem_singleton]
      push_neg
      refine ⟨ih _, ?_⟩
      have := Nat.mod_lt n (y := 10) (by omega)
      omega

/-- Decimal digits never contain the byte 58 (ASCII colon). -/
theorem colon_not_mem_natBytes (n : Nat) : 58 ∉ natBytes n :=
  colon_not_mem_natBytesAux _ _

/-! ## Turn registry (`src/broker/registry.rs`)

`TurnRecord` and `TurnRingBuffer` with newest entries at the front of
the list (the Rust `VecDeque` holds newest at the front).  The Rust
`byte_length` field is `content.len() as u32`, modelled with an
explicit `% 2^32`.
-/

/-- A single completed turn stored in the ring buffer. -/
structure TurnRecord where
  turn_id : List Nat
  content : List Nat
  timestamp : Nat
  byte_length : Nat
  interrupted : Bool
  truncated : Bool
deriving DecidableEq

/-- Per-session ring buffer of completed turns, newest first. -/
structure TurnRingBuffer where
  entries : List TurnRecord
  capacity : Nat
  max_turn_bytes : Nat
  next_seq : Nat
  session_id : List Nat
deriving DecidableEq

/-- Stable turn identifier: the session id, a colon, and the decimal
sequence number (Rust `format!("{}:{}", session_id, seq)`). -/
def mkTurnId (session_id : List Nat) (seq : Nat) : List Nat :=
  session_id ++ 58 :: natBytes seq

/-- Create a new ring buffer for the given session
(`TurnRingBuffer::new`; the Rust constructor asserts `capacity >= 1`). -/
def TurnRingBuffer.new (session_id : List Nat) (capacity max_turn_bytes : Nat) :
    TurnRingBuffer :=
  { entries := [], capacity, max_turn_bytes, next_seq := 1, session_id }

/-- The record constructed by `TurnRingBuffer::push` before insertion:
assigns the turn id from `next_seq`, computes `byte_length` as
`content.len() as u32`, and truncates content beyond `max_turn_bytes`. -/
def TurnRingBuffer.mkRecord (r : TurnRingBuffer) (content : List Nat)
    (interrupted : Bool) (timestamp : Nat) : TurnRecord :=
  let turn_id := mkTurnId r.session_id r.next_seq
  let byte_length := content.length % 2 ^ 32
  let truncated := decide (r.max_turn_bytes < content.length)
  let stored := if truncated then content.take r.max_turn_bytes else content
  { turn_id, content := stored, timestamp, byte_length, interrupted, truncated }

/-- Push a new turn into the ring buffer (`TurnRingBuffer::push`):
insert the new record at the front, evicting the oldest (back) entry
when the buffer is at capacity, and advance `next_seq`. -/
def TurnRingBuffer.push (r : TurnRingBuffer) (content : List Nat)
    (interrupted : Bool) (timestamp : Nat) : TurnRingBuffer :=
  let record := r.mkRecord content interrupted timestamp
  let kept := if r.entries.length = r.capacity then r.entries.dropLast else r.entries
  { r with entries := record :: kept, next_seq := r.next_seq + 1 }

/-- Most recent turn (`TurnRingBuffer::head`). -/
def TurnRingBuffer.head (r : TurnRingBuffer) : Option TurnRecord :=
  r.entries.head?

/-- Look up a turn by id (`TurnRingBuffer::get`, a linear scan). -/
def TurnRingBuffer.get (r : TurnRingBuffer) (turn_id : List Nat) : Option TurnRecord :=
  r.entries.find? (fun rec0 => rec0.turn_id = turn_id)

/-- Iterate turns newest first with an optional limit
(`TurnRingBuffer::iter_newest_first`). -/
def TurnRingBuffer.iterNewestFirst (r : TurnRingBuffer) (limit : Option Nat) :
    List TurnRecord :=
  match limit with
  | some l => r.entries.take l
  | none => r.entries

/-- Apply a sequence of pushes, oldest first.  Each input is
`(content, interrupted, timestamp)`. -/
def TurnRingBuffer.pushAll (r : TurnRingBuffer)
    (inputs : List (List Nat × Bool × Nat)) : TurnRingBuffer :=
  inputs.foldl (fun acc i => acc.push i.1 i.2.1 i.2.2) r

/-! ## Ring-buffer invariant -/

/-- Shape of a ring buffer after `n` pushes on a fresh buffer for
session `s` with capacity `k` and per-turn limit `mb`: the sequence
counter is at `n + 1` and the stored ids are `s:n`, `s:n-1`, …
(newest first), `min n k` of them. -/
def RingShape (s : List Nat) (k mb n : Nat) (r : TurnRingBuffer) : Prop :=
  r.session_id = s ∧ r.capacity = k ∧ r.max_turn_bytes = mb ∧ r.next_seq = n + 1 ∧
  r.entries.map TurnRecord.turn_id =
    (List.range (min n k)).map (fun i => mkTurnId s (n - i))

theorem RingShape.step (s : List Nat) (k mb n : Nat) (hk : 1 ≤ k)
    (r : TurnRingBuffer) (h : RingShape s k mb n r)
    (c : List Nat) (b : Bool) (t : Nat) :
    RingShape s k mb (n + 1) (r.push c b t) := by
  obtain ⟨hs, hc, hm, hn, he⟩ := h
  have hlen : r.entries.length = min n k := by
    have h1 := congrArg List.length he
    simpa using h1
  have hid : (r.mkRecord c b t).turn_id = mkTurnId s (n + 1) := by
    simp [TurnRingBuffer.mkRecord, hs, hn]
  refine ⟨by simp [TurnRingBuffer.push, hs], by simp [TurnRingBuffer.push, hc],
    by simp [TurnRingBuffer.push, hm], by simp [TurnRingBuffer.push, hn], ?_⟩
  by_cases hnk : n < k
  · -- below capacity: nothing is evicted
    have hne : r.entries.length ≠ r.capacity := by
      rw [hlen, hc]
      omega
    have hmin : min (n + 1) k = (min n k) + 1 := by omega
    simp only [TurnRingBuffer.push, hne, if_false, List.map_cons, hid, hmin,
      List.range_succ_eq_map, List.map_map, he]
    have hfun : ((fun i => mkTurnId s (n + 1 - i)) ∘ Nat.succ) =
        (fun i => mkTurnId s (n - i)) :=
      funext fun i => congrArg (mkTurnId s) (by omega)
    rw [hfun]
    simp
  · -- at capacity: the oldest entry is evicted
    have hke : min n k = k := by omega
    have hqe : r.entries.length = r.capacity := by rw [hlen, hc, hke]
    have hmin : min (n + 1) k = k := by omega
    have hdrop : r.entries.dropLast.map TurnRecord.turn_id =
        (List.range (k - 1)).map (fun i => mkTurnId s (n - i)) := by
      have hcomm : r.entries.dropLast.map TurnRecord.turn_id =
          (r.entries.map TurnRecord.turn_id).dropLast := by
        simp [List.map_dropLast]
      rw [hcomm, he, hke]
      have hk1 : k = (k - 1) + 1 := by omega
      rw [hk1, List.range_succ, List.map_append]
      simp
    simp only [TurnRingBuffer.push, hqe, if_true, List.map_cons, hid, hmin, hdrop]
    have hk1 : k = (k - 1) + 1 := by omega
    rw [hk1, List.range_succ_eq_map, List.map_cons, List.map_map]
    have hfun : ((fun i => mkTurnId s (n + 1 - i)) ∘ Nat.succ) =
        (fun i => mkTurnId s (n - i)) :=
      funext fun i => congrArg (mkTurnId s) (by omega)
    rw [hfun]
    simp

theorem RingShape.run (s : List Nat) (k mb : Nat) (hk : 1 ≤ k)
    (inputs : List (List Nat × Bool × Nat)) :
    ∀ (n : Nat) (r : TurnRingBuffer), RingShape s k mb n r →
      RingShape s k mb (n + inputs.length) (r.pushAll inputs) := by
  induction inputs with
  | nil =>
    intro n r h
    simpa [TurnRingBuffer.pushAll] using h
  | cons i rest ih =>
    intro n r h
    have h1 := RingShape.step s k mb n hk r h i.1 i.2.1 i.2.2
    have h2 := ih (n + 1) _ h1
    have harith : n + 1 + rest.length = n + (i :: rest).length := by
      simp
      omega
    rw [harith] at h2
    simpa [TurnRingBuffer.pushAll] using h2

theorem RingShape.start (s : List Nat) (k mb : Nat) :
    RingShape s k mb 0 (TurnRingBuffer.new s k mb) := by
  refine ⟨rfl, rfl, rfl, rfl, ?_⟩
  simp [TurnRingBuffer.new]

/-! ## Claim theorems: C2 and C3 -/

/-- C2: for every `TurnRingBuffer` of capacity `k ≥ 1` and every
sequence of pushes, the number of stored records never exceeds `k`;
after `n ≥ k` pushes on session `s` the stored turn ids are exactly
`s:n-k+1` through `s:n`, newest first; and the sequence counter
`next_seq` is never reset by eviction (it equals `n + 1` after `n`
pushes). -/
theorem C2_ring_capacity_and_ids (s : List Nat) (k mb : Nat) (hk : 1 ≤ k)
    (inputs : List (List Nat × Bool × Nat)) :
    ((TurnRingBuffer.new s k mb).pushAll inputs).entries.length ≤ k ∧
    ((TurnRingBuffer.new s k mb).pushAll inputs).next_seq = inputs.length + 1 ∧
    (k ≤ inputs.length →
      ((TurnRingBuffer.new s k mb).pushAll inputs).entries.map TurnRecord.turn_id =
        (List.range k).map (fun i => mkTurnId s (inputs.length - i))) := by
  have h := RingShape.run s k mb hk inputs 0 _ (RingShape.start s k mb)
  rw [Nat.zero_add] at h
  obtain ⟨_, _, _, hn, he⟩ := h
  have hlen : ((TurnRingBuffer.new s k mb).pushAll inputs).entries.length =
      min inputs.length k := by
    have h1 := congrArg List.length he
    simpa using h1
  refine ⟨by omega, hn, fun hge => ?_⟩
  rw [he]
  have : min inputs.length k = k := by omega
  rw [this]

/-- Witness for C2 at a concrete ring: capacity 2, three pushes on
session byte string `[115]`, stored ids are `s:3` then `s:2`. -/
theorem C2_ring_capacity_and_ids_witness :
    (1 : Nat) ≤ 2 ∧ (2 : Nat) ≤ 3 ∧
    ((TurnRingBuffer.new [115] 2 100).pushAll
        [([97], false, 1), ([98], false, 1), ([99], false, 1)]).entries.map
      TurnRecord.turn_id = [[115, 58, 51], [115, 58, 50]] := by
  refine ⟨by decide, by decide, ?_⟩
  have h := C2_ring_capacity_and_ids [115] 2 100 (by decide)
    [([97], false, 1), ([98], false, 1), ([99], false, 1)]
  have h2 := h.2.2 (by decide)
  rw [h2]
  decide

/-- C3 (amended): for every push of content `c` into a ring with
per-turn limit `max_turn_bytes`, the resulting record (the new head)
satisfies: `byte_length = |c| mod 2^32` (the source computes
`content.len() as u32`), the stored content is the prefix
`c.take max_turn_bytes` whose length is `min |c| max_turn_bytes`, and
the truncated flag is set iff `|c| > max_turn_bytes`. -/
theorem C3_push_record_fields (r : TurnRingBuffer) (c : List Nat) (b : Bool) (t : Nat) :
    (r.push c b t).entries.head? = some (r.mkRecord c b t) ∧
    (r.mkRecord c b t).byte_length = c.length % 2 ^ 32 ∧
    (r.mkRecord c b t).content = c.take r.max_turn_bytes ∧
    (r.mkRecord c b t).content.length = min c.length r.max_turn_bytes ∧
    ((r.mkRecord c b t).truncated = true ↔ r.max_turn_bytes < c.length) := by
  have hcontent : (r.mkRecord c b t).content = c.take r.max_turn_bytes := by
    simp only [TurnRingBuffer.mkRecord]
    by_cases h : r.max_turn_bytes < c.length
    · simp [h]
    · rw [if_neg (by simpa using h)]
      rw [List.take_of_length_le (by omega)]
  refine ⟨by simp [TurnRingBuffer.push], by simp [TurnRingBuffer.mkRecord], hcontent, ?_, ?_⟩
  · rw [hcontent, List.length_take]
    omega
  · simp [TurnRingBuffer.mkRecord]

theorem mkRecord_byte_length (r : TurnRingBuffer) (c : List Nat) (b : Bool) (t : Nat) :
    (r.mkRecord c b t).byte_length = c.length % 2 ^ 32 := rfl

theorem push_head_eq (r : TurnRingBuffer) (c : List Nat) (b : Bool) (t : Nat) :
    (r.push c b t).entries.head? = some (r.mkRecord c b t) := rfl

/-- C3 counterexample: at content of length `2^32` the stored
`byte_length` is `0` (the `as u32` cast wraps), not the original
content length, refuting the claim as stated. -/
theorem C3_byte_length_counterexample :
    ((TurnRingBuffer.new [115] 4 10).push (List.replicate (2 ^ 32) 0) false 0).entries.head?.map
        TurnRecord.byte_length = some 0 ∧
    (List.replicate (2 ^ 32) (0 : Nat)).length ≠ 0 := by
  constructor
  · rw [push_head_eq, Option.map_some', mkRecord_byte_length, List.length_replicate]
    norm_num
  · rw [List.length_replicate]
    norm_num

/-! ## ANSI stripper (`src/turn/ansi.rs`)

State machine that removes ANSI escape sequences from a byte stream.
Byte values: `27 = ESC`, `91 = [`, `93 = ]`, `7 = BEL`, `92 = \ `,
intermediates `32..=47`, CSI finals `64..=126`.
-/

/-- Parser states of the ANSI stripping state machine. -/
inductive StripState where
  | ground
  | escape
  | csi
  | escapeIntermediate
  | osc
  | oscEscape
deriving DecidableEq

/-- One step of `AnsiStripper::strip`: consume a byte, emit the
visible output bytes (zero or one) and the next state. -/
def stripByte (st : StripState) (b : Nat) : StripState × List Nat :=
  match st with
  | .ground => if b = 27 then (.escape, []) else (.ground, [b])
  | .escape =>
    if b = 91 then (.csi, [])
    else if b = 93 then (.osc, [])
    else if 32 ≤ b ∧ b ≤ 47 then (.escapeIntermediate, [])
    else (.ground, [])
  | .csi => if 64 ≤ b ∧ b ≤ 126 then (.ground, []) else (.csi, [])
  | .escapeIntermediate =>
    if 32 ≤ b ∧ b ≤ 47 then (.escapeIntermediate, []) else (.ground, [])
  | .osc =>
    if b = 7 then (.ground, [])
    else if b = 27 then (.oscEscape, []) else (.osc, [])
  | .oscEscape =>
    if b = 92 then (.ground, [])
    else if b = 91 then (.csi, [])
    else if b = 93 then (.osc, [])
    else (.ground, [])

/-- The stateful `AnsiStripper::strip` over a byte list: threads the
state through the input and concatenates the visible output. -/
def stripBytes : StripState → List Nat → StripState × List Nat
  | st, [] => (st, [])
  | st, b :: rest =>
    let s1 := stripByte st b
    let s2 := stripBytes s1.1 rest
    (s2.1, s1.2 ++ s2.2)

/-- C9: a fresh ANSI stripper (in the `Ground` state) is the identity
on every byte sequence that contains no ESC byte (`0x1B`), and it
remains in the `Ground` state. -/
theorem C9_strip_identity_without_esc (input : List Nat) (h : 27 ∉ input) :
    stripBytes StripState.ground input = (StripState.ground, input) := by
  induction input with
  | nil => rfl
  | cons b rest ih =>
    have hb : b ≠ 27 := fun hb => h (by simp [hb])
    have hrest : 27 ∉ rest := fun hr => h (by simp [hr])
    simp [stripBytes, stripByte, hb, ih hrest]

/-- Witness for C9 at a concrete ESC-free input. -/
theorem C9_strip_identity_without_esc_witness :
    27 ∉ [104, 101, 108, 108, 111] ∧
    stripBytes StripState.ground [104, 101, 108, 108, 111] =
      (StripState.ground, [104, 101, 108, 108, 111]) :=
  ⟨by decide, C9_strip_identity_without_esc [104, 101, 108, 108, 111] (by decide)⟩

/-! ## Turn detector (`src/turn/mod.rs`)

The prompt regex match (`self.pattern.is_match(&line_str)` on the
UTF-8-lossy decoding of the ANSI-stripped, newline-trimmed line) is
abstracted as an arbitrary boolean predicate on the trimmed byte list;
every theorem below holds for every such predicate.
-/

/-- States of the turn-detector state machine. -/
inductive DetectorState where
  | awaitingFirstPrompt
  | awaitingUserInput
  | accumulatingOutput
deriving DecidableEq

/-- Events emitted by the turn detector. -/
inductive TurnEvent where
  | sessionReady
  | turnCompleted (content : List Nat) (interrupted : Bool) (timestamp : Nat)
deriving DecidableEq

/-- The turn detector: prompt predicate, state, ANSI-stripper state and
the three byte accumulators. -/
structure TurnDetector where
  isPrompt : List Nat → Bool
  state : DetectorState
  stripState : StripState
  line_buf : List Nat
  content_buf : List Nat
  raw_line_buf : List Nat
  interrupted : Bool

/-- Fresh detector (`TurnDetector::new`). -/
def TurnDetector.new (p : List Nat → Bool) : TurnDetector :=
  { isPrompt := p, state := .awaitingFirstPrompt, stripState := .ground,
    line_buf := [], content_buf := [], raw_line_buf := [], interrupted := false }

/-- Trim one trailing newline, and a carriage return before it, from a
line (the trimming at the top of `TurnDetector::process_line`). -/
def trimLine (line : List Nat) : List Nat :=
  if line.getLast? = some 10 then
    let t := line.dropLast
    if t.getLast? = some 13 then t.dropLast else t
  else line

/-- `TurnDetector::process_line`: match the trimmed stripped line
against the prompt pattern and take the corresponding transition,
clearing the per-line buffers. -/
def TurnDetector.processLine (d : TurnDetector) (now : Nat) :
    TurnDetector × List TurnEvent :=
  if d.isPrompt (trimLine d.line_buf) then
    match d.state with
    | .awaitingFirstPrompt =>
      ({ d with state := .awaitingUserInput, line_buf := [], raw_line_buf := [] },
        [.sessionReady])
    | .awaitingUserInput =>
      ({ d with line_buf := [], raw_line_buf := [] }, [])
    | .accumulatingOutput =>
      let content := d.content_buf
      let events :=
        if content = [] then ([] : List TurnEvent)
        else [.turnCompleted content d.interrupted now]
      ({ d with
          state := .awaitingUserInput
          content_buf := []
          interrupted := false
          line_buf := []
          raw_line_buf := [] }, events)
  else
    if d.state = .accumulatingOutput then
      ({ d with
          content_buf := d.content_buf ++ d.raw_line_buf
          line_buf := []
          raw_line_buf := [] }, [])
    else
      ({ d with line_buf := [], raw_line_buf := [] }, [])

/-- One byte of `TurnDetector::feed_output`: append to the raw line,
strip for prompt detection, and process the line on a newline byte. -/
def TurnDetector.feedByte (d : TurnDetector) (b : Nat) (now : Nat) :
    TurnDetector × List TurnEvent :=
  let s1 := stripByte d.stripState b
  let d1 := { d with raw_line_buf := d.raw_line_buf ++ [b],
                     stripState := s1.1, line_buf := d.line_buf ++ s1.2 }
  if b = 10 then d1.processLine now else (d1, [])

/-- `TurnDetector::feed_output` over a chunk of bytes. -/
def TurnDetector.feedOutput (d : TurnDetector) (data : List Nat) (now : Nat) :
    TurnDetector × List TurnEvent :=
  match data with
  | [] => (d, [])
  | b :: rest =>
    let r1 := d.feedByte b now
    let r2 := r1.1.feedOutput rest now
    (r2.1, r1.2 ++ r2.2)

/-- `TurnDetector::notify_user_input`. -/
def TurnDetector.notifyUserInput (d : TurnDetector) : TurnDetector :=
  if d.state = .awaitingUserInput then
    { d with state := .accumulatingOutput, content_buf := [], interrupted := false }
  else d

/-- `TurnDetector::notify_interrupt`. -/
def TurnDetector.notifyInterrupt (d : TurnDetector) : TurnDetector :=
  if d.state = .accumulatingOutput then { d with interrupted := true } else d

/-- `TurnDetector::flush_line`: process the pending partial line as if
a newline had arrived, when it is non-empty. -/
def TurnDetector.flushLine (d : TurnDetector) (now : Nat) :
    TurnDetector × List TurnEvent :=
  if d.line_buf = [] then (d, []) else d.processLine now

/-- An interleaving step applied to the detector. -/
inductive DetectorOp where
  | feed (data : List Nat) (now : Nat)
  | userInput
  | interrupt
  | flush (now : Nat)

/-- Apply one operation. -/
def TurnDetector.runOp (d : TurnDetector) : DetectorOp → TurnDetector × List TurnEvent
  | .feed data now => d.feedOutput data now
  | .userInput => (d.notifyUserInput, [])
  | .interrupt => (d.notifyInterrupt, [])
  | .flush now => d.flushLine now

/-- Apply a sequence of operations, collecting all emitted events. -/
def TurnDetector.runOps (d : TurnDetector) : List DetectorOp → TurnDetector × List TurnEvent
  | [] => (d, [])
  | op :: rest =>
    let r1 := d.runOp op
    let r2 := r1.1.runOps rest
    (r2.1, r1.2 ++ r2.2)

theorem processLine_events_nonempty (d : TurnDetector) (now : Nat) :
    ∀ c i t, TurnEvent.turnCompleted c i t ∈ (d.processLine now).2 → c ≠ [] := by
  intro c i t hmem
  unfold TurnDetector.processLine at hmem
  by_cases hp : d.isPrompt (trimLine d.line_buf)
  · rw [if_pos hp] at hmem
    cases hst : d.state
    all_goals rw [hst] at hmem
    · simp at hmem
    · simp at hmem
    · by_cases hc : d.content_buf = []
      · simp [hc] at hmem
      · simp [hc] at hmem
        obtain ⟨h1, -⟩ := hmem
        rw [h1]
        exact hc
  · rw [if_neg hp] at hmem
    by_cases hst : d.state = .accumulatingOutput
    · simp [hst] at hmem
    · simp [hst] at hmem

theorem feedOutput_events_nonempty (data : List Nat) :
    ∀ (d : TurnDetector) (now : Nat) c i t,
      TurnEvent.turnCompleted c i t ∈ (d.feedOutput data now).2 → c ≠ [] := by
  induction data with
  | nil =>
    intro d now c i t hmem
    simp [TurnDetector.feedOutput] at hmem
  | cons b rest ih =>
    intro d now c i t hmem
    simp only [TurnDetector.feedOutput, List.mem_append] at hmem
    rcases hmem with hmem | hmem
    · unfold TurnDetector.feedByte at hmem
      by_cases hb : b = 10
      · rw [if_pos hb] at hmem
        exact processLine_events_nonempty _ now c i t hmem
      · rw [if_neg hb] at hmem
        simp at hmem
    · exact ih _ now c i t hmem

theorem runOp_events_nonempty (d : TurnDetector) (op : DetectorOp) :
    ∀ c i t, TurnEvent.turnCompleted c i t ∈ (d.runOp op).2 → c ≠ [] := by
  intro c i t hmem
  cases op with
  | feed data now => exact feedOutput_events_nonempty data d now c i t hmem
  | userInput => simp [TurnDetector.runOp] at hmem
  | interrupt => simp [TurnDetector.runOp] at hmem
  | flush now =>
    simp only [TurnDetector.runOp, TurnDetector.flushLine] at hmem
    by_cases hl : d.line_buf = []
    · simp [hl] at hmem
    · rw [if_neg hl] at hmem
      exact processLine_events_nonempty _ now c i t hmem

theorem runOps_events_nonempty (ops : List DetectorOp) :
    ∀ (d : TurnDetector) c i t,
      TurnEvent.turnCompleted c i t ∈ (d.runOps ops).2 → c ≠ [] := by
  induction ops with
  | nil =>
    intro d c i t hmem
    simp [TurnDetector.runOps] at hmem
  | cons op rest ih =>
    intro d c i t hmem
    simp only [TurnDetector.runOps, List.mem_append] at hmem
    rcases hmem with hmem | hmem
    · exact runOp_events_nonempty d op c i t hmem
    · exact ih _ c i t hmem

/-- C4: the turn detector never emits a `TurnCompleted` event with
empty content — for every prompt predicate, every initial byte stream
and every interleaving of feeds, `notify_user_input`,
`notify_interrupt` and `flush_line` operations, every emitted
`TurnCompleted` carries non-empty content; moreover a line processed
in the `AwaitingUserInput` state (a prompt line immediately following
a prompt line) produces no event, and a prompt line keeps the detector
in `AwaitingUserInput`. -/
theorem C4_no_empty_turns (p : List Nat → Bool) (ops : List DetectorOp) :
    (∀ c i t, TurnEvent.turnCompleted c i t ∈ ((TurnDetector.new p).runOps ops).2 →
      c ≠ []) ∧
    (∀ (d : TurnDetector) (now : Nat), d.state = .awaitingUserInput →
      (d.processLine now).2 = [] ∧
      (d.isPrompt (trimLine d.line_buf) = true →
        (d.processLine now).1.state = .awaitingUserInput)) := by
  refine ⟨fun c i t h => runOps_events_nonempty ops _ c i t h, ?_⟩
  intro d now hst
  unfold TurnDetector.processLine
  by_cases hp : d.isPrompt (trimLine d.line_buf)
  · rw [if_pos hp, hst]
    exact ⟨rfl, fun _ => rfl⟩
  · rw [if_neg hp]
    have : d.state ≠ .accumulatingOutput := by rw [hst]; intro h; cases h
    rw [if_neg this]
    exact ⟨rfl, fun hc => absurd hc (by simpa using hp)⟩

/-- Witness for C4 at a concrete prompt predicate (lines equal to
`>` [62]), a concrete interleaving, and a concrete detector in the
`AwaitingUserInput` state. -/
theorem C4_no_empty_turns_witness :
    (∀ c i t,
      TurnEvent.turnCompleted c i t ∈
        ((TurnDetector.new (fun l => l = [62])).runOps
          [.feed [62, 10] 5, .userInput, .feed [104, 10, 62, 10] 6]).2 → c ≠ []) ∧
    (({ isPrompt := fun l => l = [62], state := .awaitingUserInput,
        stripState := .ground, line_buf := [62, 10], content_buf := [],
        raw_line_buf := [62, 10], interrupted := false } :
          TurnDetector).processLine 7).2 = [] := by
  have h := C4_no_empty_turns (fun l => l = [62])
    [.feed [62, 10] 5, .userInput, .feed [104, 10, 62, 10] 6]
  refine ⟨h.1, ?_⟩
  exact (h.2 _ 7 rfl).1

/-! ## Wire protocol (`src/ipc/protocol.rs`)

`Message` mirrors the Rust tagged union.  String and byte-vector fields
are byte lists; `u32`/`u64` fields are `Nat`.
-/

/-- Connection role fixed at handshake (`Role`). -/
inductive Role where
  | wrapper
  | client
deriving DecidableEq

/-- Response status (`Status`). -/
inductive Status where
  | ok
  | error
deriving DecidableEq

/-- Session descriptor returned in `list_sessions` responses. -/
structure SessionDescriptor where
  session : List Nat
  pid : Nat
  has_turn : Bool
deriving DecidableEq

/-- Turn descriptor returned in `list_turns` responses. -/
structure TurnDescriptor where
  turn_id : List Nat
  timestamp : Nat
  byte_length : Nat
  interrupted : Bool
  truncated : Bool
deriving DecidableEq

/-- The wire protocol messages (`Message`). -/
inductive Message where
  | hello (id : Nat) (version : Nat) (role : Role)
  | helloAck (id : Nat) (status : Status) (error : Option (List Nat))
  | register (id : Nat) (session : List Nat) (pid : Nat) (pattern0 : List Nat)
  | deregister (id : Nat) (session : List Nat)
  | turnCompleted (id : Nat) (session : List Nat) (content : List Nat)
      (interrupted : Bool) (timestamp : Nat)
  | capture (id : Nat) (session : List Nat)
  | paste (id : Nat) (session : List Nat)
  | inject (id : Nat) (content : List Nat)
  | listSessions (id : Nat)
  | getTurn (id : Nat) (turn_id : List Nat)
  | listTurns (id : Nat) (session : List Nat) (limit : Option Nat)
  | captureById (id : Nat) (turn_id : List Nat)
  | response (id : Nat) (status : Status) (error : Option (List Nat))
      (size : Option Nat) (sessions : Option (List SessionDescriptor))
      (turn_id : Option (List Nat)) (content : Option (List Nat))
      (timestamp : Option Nat) (byte_length : Option Nat)
      (interrupted : Option Bool) (truncated : Option Bool)
      (turns : Option (List TurnDescriptor))
deriving DecidableEq

/-- Protocol version constant (`PROTOCOL_VERSION`). -/
def PROTOCOL_VERSION : Nat := 1

/-- The `id` field common to all message variants. -/
def Message.msgId : Message → Nat
  | .hello id _ _ => id
  | .helloAck id _ _ => id
  | .register id _ _ _ => id
  | .deregister id _ => id
  | .turnCompleted id _ _ _ _ => id
  | .capture id _ => id
  | .paste id _ => id
  | .inject id _ => id
  | .listSessions id => id
  | .getTurn id _ => id
  | .listTurns id _ _ => id
  | .captureById id _ => id
  | .response id _ _ _ _ _ _ _ _ _ _ _ => id

/-! ## Broker state (`src/broker/state.rs`)

The two hash maps (sessions and connections) are modelled as
association lists looked up with `List.find?` — each Rust insertion
point guarantees key uniqueness, and insertion replaces any previous
binding as `HashMap::insert` does.
-/

/-- Ring buffer configuration (`RingConfig`). -/
structure RingConfig where
  depth : Nat
  max_turn_bytes : Nat
deriving DecidableEq

/-- Turn metadata passed to sinks (`SinkMetadata`). -/
structure SinkMetadata where
  turn_id : List Nat
  timestamp : Nat
  byte_length : Nat
  interrupted : Bool
  truncated : Bool
deriving DecidableEq

/-- Relay buffer entry (`RelayEntry`). -/
structure RelayEntry where
  content : List Nat
  metadata : SinkMetadata
deriving DecidableEq

/-- Result of a capture operation (`CaptureResult`). -/
structure CaptureResult where
  size : Nat
  turn_id : List Nat
deriving DecidableEq

/-- Session table entry (`SessionEntry`). -/
structure SessionEntry where
  connection_id : Nat
  pid : Nat
  ring : TurnRingBuffer
deriving DecidableEq

/-- The broker state (`BrokerState`). -/
structure BrokerState where
  sessions : List (List Nat × SessionEntry)
  relay_buffer : Option RelayEntry
  connections : List (Nat × Role)
  ring_config : RingConfig
deriving DecidableEq

/-- `BrokerState::new`. -/
def BrokerState.new (config : RingConfig) : BrokerState :=
  { sessions := [], relay_buffer := none, connections := [], ring_config := config }

/-- Association-list lookup used for both hash maps. -/
def alistFind {α : Type} (l : List (List Nat × α)) (k : List Nat) : Option α :=
  (l.find? (fun p => p.1 = k)).map (·.2)

/-- Connection lookup by numeric id. -/
def connFind (l : List (Nat × Role)) (k : Nat) : Option Role :=
  (l.find? (fun p => p.1 = k)).map (·.2)

/-- `BrokerState::add_connection` (`HashMap::insert` semantics). -/
def BrokerState.addConnection (s : BrokerState) (id : Nat) (role : Role) : BrokerState :=
  { s with connections := (id, role) :: s.connections.filter (fun p => ¬ p.1 = id) }

/-- `BrokerState::connection_role`. -/
def BrokerState.connectionRole (s : BrokerState) (id : Nat) : Option Role :=
  connFind s.connections id

/-- `BrokerState::remove_connection`: drop the connection and retain
only sessions owned by other connections. -/
def BrokerState.removeConnection (s : BrokerState) (id : Nat) : BrokerState :=
  { s with
    connections := s.connections.filter (fun p => ¬ p.1 = id)
    sessions := s.sessions.filter (fun p => ¬ p.2.connection_id = id) }

/-- `BrokerState::register_session`. -/
def BrokerState.registerSession (s : BrokerState) (session_id : List Nat)
    (connection_id pid : Nat) : Except (List Nat) BrokerState :=
  if (alistFind s.sessions session_id).isSome then
    .error eDuplicateSession
  else
    let ring := TurnRingBuffer.new session_id s.ring_config.depth
      s.ring_config.max_turn_bytes
    .ok { s with sessions := (session_id, ⟨connection_id, pid, ring⟩) :: s.sessions }

/-- `BrokerState::deregister_session` (idempotent removal). -/
def BrokerState.deregisterSession (s : BrokerState) (session_id : List Nat) : BrokerState :=
  { s with sessions := s.sessions.filter (fun p => ¬ p.1 = session_id) }

/-- Update the entry of a session in place (models `get_mut`). -/
def BrokerState.updateSession (s : BrokerState) (session_id : List Nat)
    (e : SessionEntry) : BrokerState :=
  { s with sessions := s.sessions.map (fun p => if p.1 = session_id then (p.1, e) else p) }

/-- `BrokerState::store_turn`: push into the session's ring and return
the assigned turn id. -/
def BrokerState.storeTurn (s : BrokerState) (session_id : List Nat)
    (content : List Nat) (interrupted : Bool) (timestamp : Nat) :
    Except (List Nat) (BrokerState × List Nat) :=
  match alistFind s.sessions session_id with
  | none => .error eSessionNotFound
  | some e =>
    let ring := e.ring.push content interrupted timestamp
    let tid := (e.ring.mkRecord content interrupted timestamp).turn_id
    .ok (s.updateSession session_id { e with ring }, tid)

/-- Metadata of a stored record, as copied into the relay buffer. -/
def recordMetadata (r : TurnRecord) : SinkMetadata :=
  ⟨r.turn_id, r.timestamp, r.byte_length, r.interrupted, r.truncated⟩

/-- `BrokerState::capture`: copy the session's latest turn into the
relay buffer; `size` is `content.len() as u32`. -/
def BrokerState.capture (s : BrokerState) (session_id : List Nat) :
    Except (List Nat) (BrokerState × CaptureResult) :=
  match alistFind s.sessions session_id with
  | none => .error eSessionNotFound
  | some e =>
    match e.ring.head with
    | none => .error eNoTurn
    | some h =>
      .ok ({ s with relay_buffer := some ⟨h.content, recordMetadata h⟩ },
        ⟨h.content.length % 2 ^ 32, h.turn_id⟩)

/-- `BrokerState::paste_content`: read the relay buffer and resolve the
target session's live connection.  Takes `&self` — no state change. -/
def BrokerState.pasteContent (s : BrokerState) (session_id : List Nat) :
    Except (List Nat) (List Nat × Nat) :=
  match s.relay_buffer with
  | none => .error eBufferEmpty
  | some relay =>
    match alistFind s.sessions session_id with
    | none => .error eSessionNotFound
    | some e =>
      if (connFind s.connections e.connection_id).isSome then
        .ok (relay.content, e.connection_id)
      else
        .error eSessionDisconnected

/-- `BrokerState::relay_content`. -/
def BrokerState.relayContent (s : BrokerState) : Option (List Nat × SinkMetadata) :=
  s.relay_buffer.map (fun r => (r.content, r.metadata))

/-- `BrokerState::list_sessions`. -/
def BrokerState.listSessions (s : BrokerState) : List SessionDescriptor :=
  s.sessions.map (fun p => ⟨p.1, p.2.pid, ¬ p.2.ring.entries.isEmpty⟩)

/-- Split a turn id on the first colon (`str::split_once(':')`),
returning the session-id prefix and the remainder. -/
def splitOnceColon : List Nat → Option (List Nat × List Nat)
  | [] => none
  | b :: rest =>
    if b = 58 then some ([], rest)
    else
      match splitOnceColon rest with
      | some (p, suf) => some (b :: p, suf)
      | none => none

/-- `BrokerState::get_turn`: split the turn id on the first colon and
look the session up by the prefix, then scan its ring. -/
def BrokerState.getTurn (s : BrokerState) (turn_id : List Nat) :
    Except (List Nat) TurnRecord :=
  match splitOnceColon turn_id with
  | none => .error eTurnNotFound
  | some (session_id, _) =>
    match alistFind s.sessions session_id with
    | none => .error eTurnNotFound
    | some e =>
      match e.ring.get turn_id with
      | none => .error eTurnNotFound
      | some r => .ok r

/-- `BrokerState::list_turns`. -/
def BrokerState.listTurns (s : BrokerState) (session_id : List Nat)
    (limit : Option Nat) : Except (List Nat) (List TurnRecord) :=
  match alistFind s.sessions session_id with
  | none => .error eSessionNotFound
  | some e => .ok (e.ring.iterNewestFirst limit)

/-- `BrokerState::capture_by_id`: like `capture` but resolves a
specific turn from the ring. -/
def BrokerState.captureById (s : BrokerState) (turn_id : List Nat) :
    Except (List Nat) (BrokerState × CaptureResult) :=
  match splitOnceColon turn_id with
  | none => .error eTurnNotFound
  | some (session_id, _) =>
    match alistFind s.sessions session_id with
    | none => .error eTurnNotFound
    | some e =>
      match e.ring.get turn_id with
      | none => .error eTurnNotFound
      | some r =>
        .ok ({ s with relay_buffer := some ⟨r.content, recordMetadata r⟩ },
          ⟨r.content.length % 2 ^ 32, r.turn_id⟩)

/-! ## Dispatcher (`src/broker/handler.rs`) -/

/-- An inject command routed by the broker loop (`InjectAction`). -/
structure InjectAction where
  target_connection : Nat
  message : Message
deriving DecidableEq

/-- `ok_response`. -/
def okResponse (id : Nat) : Message :=
  .response id .ok none none none none none none none none none none

/-- `error_response`. -/
def errorResponse (id : Nat) (reason : List Nat) : Message :=
  .response id .error (some reason) none none none none none none none none none

/-- `is_wrapper`. -/
def isWrapper (s : BrokerState) (connection_id : Nat) : Bool :=
  s.connectionRole connection_id = some Role.wrapper

/-- `handle_hello`: enforce `id = 0` and the protocol version, record
the connection, and acknowledge with a `hello_ack` of id `0`. -/
def handleHello (s : BrokerState) (id version : Nat) (role : Role)
    (connection_id : Nat) : BrokerState × Message :=
  if ¬ id = 0 then
    (s, .helloAck 0 .error (some eInvalidHelloId))
  else if ¬ version = PROTOCOL_VERSION then
    (s, .helloAck 0 .error (some eVersionMismatch))
  else
    (s.addConnection connection_id role, .helloAck 0 .ok none)

/-- `handle_paste`. -/
def handlePaste (s : BrokerState) (id : Nat) (session : List Nat) :
    Message × Option InjectAction :=
  match s.pasteContent session with
  | .ok (content, target) =>
    (okResponse id, some ⟨target, .inject 0 content⟩)
  | .error reason => (errorResponse id reason, none)

/-- `handle_message`: the broker dispatcher.  `now` models the broker's
receipt-time clock (`epoch_millis()`), substituted when a
`turn_completed` carries the zero-timestamp sentinel. -/
def handleMessage (s : BrokerState) (request : Message) (connection_id : Nat)
    (now : Nat) : BrokerState × Message × Option InjectAction :=
  match request with
  | .hello id version role =>
    let r := handleHello s id version role connection_id
    (r.1, r.2, none)
  | .register id session pid _ =>
    if ¬ isWrapper s connection_id then
      (s, errorResponse id eUnknownType, none)
    else
      match s.registerSession session connection_id pid with
      | .ok s1 => (s1, okResponse id, none)
      | .error reason => (s, errorResponse id reason, none)
  | .deregister id session =>
    if ¬ isWrapper s connection_id then
      (s, errorResponse id eUnknownType, none)
    else
      (s.deregisterSession session, okResponse id, none)
  | .turnCompleted id session content interrupted timestamp =>
    if ¬ isWrapper s connection_id then
      (s, errorResponse id eUnknownType, none)
    else
      let ts := if timestamp = 0 then now else timestamp
      match s.storeTurn session content interrupted ts with
      | .ok (s1, tid) =>
        (s1, .response id .ok none none none (some tid) none none none none none none,
          none)
      | .error reason => (s, errorResponse id reason, none)
  | .capture id session =>
    match s.capture session with
    | .ok (s1, result) =>
      (s1, .response id .ok none (some result.size) none (some result.turn_id)
        none none none none none none, none)
    | .error reason => (s, errorResponse id reason, none)
  | .paste id session =>
    let r := handlePaste s id session
    (s, r.1, r.2)
  | .listSessions id =>
    (s, .response id .ok none none (some s.listSessions) none none none none
      none none none, none)
  | .getTurn id turn_id =>
    match s.getTurn turn_id with
    | .ok r =>
      (s, .response id .ok none none none (some r.turn_id) (some r.content)
        (some r.timestamp) (some r.byte_length) (some r.interrupted)
        (some r.truncated) none, none)
    | .error reason => (s, errorResponse id reason, none)
  | .listTurns id session limit =>
    match s.listTurns session limit with
    | .ok records =>
      (s, .response id .ok none none none none none none none none none
        (some (records.map (fun r =>
          ⟨r.turn_id, r.timestamp, r.byte_length, r.interrupted, r.truncated⟩))),
        none)
    | .error reason => (s, errorResponse id reason, none)
  | .captureById id turn_id =>
    match s.captureById turn_id with
    | .ok (s1, result) =>
      (s1, .response id .ok none (some result.size) none (some result.turn_id)
        none none none none none none, none)
    | .error reason => (s, errorResponse id reason, none)
  | .helloAck id _ _ => (s, errorResponse id eUnknownType, none)
  | .response id _ _ _ _ _ _ _ _ _ _ _ => (s, errorResponse id eUnknownType, none)
  | .inject id _ => (s, errorResponse id eUnknownType, none)

/-! ## Claim theorems: C1, C6, C7 -/

theorem handleMessage_inject_shape (s : BrokerState) (m : Message)
    (connection_id now : Nat) :
    (handleMessage s m connection_id now).2.2 = none ∨
    ∃ target content, (handleMessage s m connection_id now).2.2 =
      some ⟨target, .inject 0 content⟩ := by
  cases m <;> simp only [handleMessage, handlePaste] <;> (repeat' split) <;> simp

/-- C1: for every request dispatched by the broker, the response
carries the same `id` as the request, except that `hello` is answered
by a `hello_ack` with id `0` regardless of the request id; and every
inject action emitted by the broker carries an `inject` message with
id `0`. -/
theorem C1_response_id_discipline (s : BrokerState) (m : Message)
    (connection_id now : Nat) :
    (match m with
     | .hello _ _ _ => ∃ st er,
        (handleMessage s m connection_id now).2.1 = .helloAck 0 st er
     | _ => ((handleMessage s m connection_id now).2.1).msgId = m.msgId) ∧
    (∀ a, (handleMessage s m connection_id now).2.2 = some a →
      ∃ content, a.message = .inject 0 content) := by
  constructor
  · cases m <;>
      simp only [handleMessage, handleHello, handlePaste] <;>
      (repeat' split) <;>
      simp [Message.msgId, okResponse, errorResponse]
  · intro a ha
    rcases handleMessage_inject_shape s m connection_id now with h | ⟨target, content, h⟩
    · rw [h] at ha
      cases ha
    · rw [h] at ha
      cases ha
      exact ⟨content, rfl⟩

/-- C6 counterexample: on a fresh broker state (empty relay buffer) a
paste on an unregistered session answers `buffer_empty`, not
`session_not_found` — the relay-buffer check precedes the session
lookup. -/
theorem C6_paste_counterexample :
    (handleMessage (BrokerState.new ⟨32, 4194304⟩) (.paste 1 [115]) 7 0).2.1 =
      errorResponse 1 eBufferEmpty ∧
    errorResponse 1 eBufferEmpty ≠ errorResponse 1 eSessionNotFound := by
  constructor
  · rfl
  · decide

/-- C6 (amended): provided the relay buffer is non-empty, a paste
request on session `sid` returns `session_not_found` when `sid` is not
registered, `session_disconnected` when it is registered but its
owning connection is no longer tracked, and on success returns `ok`
(echoing the request id) together with an inject action routing an
`inject` message with id `0` and the relay content to the target
session's connection. -/
theorem C6_paste_results (s : BrokerState) (re : RelayEntry)
    (id cid now : Nat) (sid : List Nat)
    (hre : s.relay_buffer = some re) :
    (alistFind s.sessions sid = none →
      handleMessage s (.paste id sid) cid now =
        (s, errorResponse id eSessionNotFound, none)) ∧
    (∀ e, alistFind s.sessions sid = some e →
      connFind s.connections e.connection_id = none →
      handleMessage s (.paste id sid) cid now =
        (s, errorResponse id eSessionDisconnected, none)) ∧
    (∀ e r, alistFind s.sessions sid = some e →
      connFind s.connections e.connection_id = some r →
      handleMessage s (.paste id sid) cid now =
        (s, okResponse id, some ⟨e.connection_id, .inject 0 re.content⟩)) := by
  refine ⟨fun hnone => ?_, fun e he hconn => ?_, fun e r he hconn => ?_⟩
  · simp [handleMessage, handlePaste, BrokerState.pasteContent, hre, hnone]
  · simp [handleMessage, handlePaste, BrokerState.pasteContent, hre, he, hconn]
  · simp [handleMessage, handlePaste, BrokerState.pasteContent, hre, he, hconn]

/-- A concrete broker state with one wrapper connection (id 1), one
registered session `[115]` holding one stored turn, and a captured
relay buffer. -/
def exampleState : BrokerState :=
  { sessions :=
      [([115],
        ⟨1, 42,
          { entries := [⟨[115, 58, 49], [97], 5, 1, false, false⟩],
            capacity := 2, max_turn_bytes := 100, next_seq := 2,
            session_id := [115] }⟩)]
    relay_buffer := some ⟨[97], ⟨[115, 58, 49], 5, 1, false, false⟩⟩
    connections := [(1, Role.wrapper)]
    ring_config := ⟨2, 100⟩ }

/-- Witness for C6 at `exampleState`: pasting into the live session
`[115]` produces `ok` and an inject of the relay content to
connection 1, and pasting into an unregistered session produces
`session_not_found`. -/
theorem C6_paste_results_witness :
    handleMessage exampleState (.paste 9 [115]) 7 0 =
      (exampleState, okResponse 9, some ⟨1, .inject 0 [97]⟩) ∧
    handleMessage exampleState (.paste 9 [116]) 7 0 =
      (exampleState, errorResponse 9 eSessionNotFound, none) := by
  constructor
  · exact (C6_paste_results exampleState ⟨[97], ⟨[115, 58, 49], 5, 1, false, false⟩⟩
      9 7 0 [115] rfl).2.2
      ⟨1, 42,
        { entries := [⟨[115, 58, 49], [97], 5, 1, false, false⟩],
          capacity := 2, max_turn_bytes := 100, next_seq := 2,
          session_id := [115] }⟩
      Role.wrapper (by decide) (by decide)
  · exact (C6_paste_results exampleState ⟨[97], ⟨[115, 58, 49], 5, 1, false, false⟩⟩
      9 7 0 [116] rfl).1 (by decide)

/-- C7: the relay buffer is overwritten — replaced with the referenced
turn's content and metadata — by every successful `capture` and
`capture_by_id`, and is left unchanged by `paste`, by `deregister` of
a session, and by removal of a connection. -/
theorem C7_relay_buffer_effects (s : BrokerState) (sid tid : List Nat)
    (cid id now : Nat) :
    (∀ s1 res, s.capture sid = .ok (s1, res) →
      ∃ e h, alistFind s.sessions sid = some e ∧ e.ring.head = some h ∧
        s1.relay_buffer = some ⟨h.content, recordMetadata h⟩) ∧
    (∀ s1 res, s.captureById tid = .ok (s1, res) →
      ∃ r, s.getTurn tid = .ok r ∧
        s1.relay_buffer = some ⟨r.content, recordMetadata r⟩) ∧
    (handleMessage s (.paste id sid) cid now).1 = s ∧
    (s.deregisterSession sid).relay_buffer = s.relay_buffer ∧
    (s.removeConnection cid).relay_buffer = s.relay_buffer := by
  refine ⟨?_, ?_, rfl, rfl, rfl⟩
  · intro s1 res hok
    unfold BrokerState.capture at hok
    split at hok
    · cases hok
    · rename_i e he
      split at hok
      · cases hok
      · rename_i h hh
        cases hok
        exact ⟨e, h, he, hh, rfl⟩
  · intro s1 res hok
    unfold BrokerState.captureById at hok
    split at hok
    · cases hok
    · rename_i p hsplit
      split at hok
      · cases hok
      · rename_i e he
        split at hok
        · cases hok
        · rename_i r hget
          cases hok
          refine ⟨r, ?_, rfl⟩
          simp [BrokerState.getTurn, hsplit, he, hget]

/-- Witness for C7 at `exampleState`: a successful capture exists and
replaces the relay buffer with the stored head turn. -/
theorem C7_relay_buffer_effects_witness :
    ∃ e h, alistFind exampleState.sessions [115] = some e ∧
      e.ring.head = some h ∧
      ({ exampleState with
          relay_buffer := some ⟨h.content, recordMetadata h⟩ } :
            BrokerState).relay_buffer = some ⟨h.content, recordMetadata h⟩ := by
  obtain ⟨e, h, he, hh, hrel⟩ :=
    (C7_relay_buffer_effects exampleState [115] [115, 58, 49] 1 9 0).1
      { exampleState with
        relay_buffer := some ⟨[97], recordMetadata ⟨[115, 58, 49], [97], 5, 1, false, false⟩⟩ }
      ⟨1, [115, 58, 49]⟩ rfl
  exact ⟨e, h, he, hh, rfl⟩

/-! ## Claim theorems: C10 -/

theorem splitOnceColon_prefix (p t : List Nat) (hp : 58 ∉ p) :
    splitOnceColon (p ++ 58 :: t) = some (p, t) := by
  induction p with
  | nil => simp [splitOnceColon]
  | cons b rest ih =>
    have hb : b ≠ 58 := fun h => hp (by simp [h])
    have hrest : 58 ∉ rest := fun h => hp (by simp [h])
    simp [splitOnceColon, hb, ih hrest]

theorem exists_colon_split (l : List Nat) (h : 58 ∈ l) :
    ∃ p suf, l = p ++ 58 :: suf ∧ 58 ∉ p := by
  induction l with
  | nil => cases h
  | cons b rest ih =>
    by_cases hb : b = 58
    · exact ⟨[], rest, by simp [hb], by simp⟩
    · have hrest : 58 ∈ rest := by
        rcases List.mem_cons.mp h with h1 | h1
        · exact absurd h1.symm hb
        · exact h1
      obtain ⟨p, suf, hps, hnp⟩ := ih hrest
      exact ⟨b :: p, suf, by simp [hps], by
        intro hmem
        rcases List.mem_cons.mp hmem with h1 | h1
        · exact hb h1.symm
        · exact hnp h1⟩

theorem alistFind_mem {α : Type} (l : List (List Nat × α)) (k : List Nat) (v : α)
    (h : alistFind l k = some v) : (k, v) ∈ l := by
  unfold alistFind at h
  cases hf : l.find? (fun p => p.1 = k) with
  | none => rw [hf] at h; cases h
  | some pair =>
    rw [hf] at h
    have hmem := List.mem_of_find?_eq_some hf
    have hkey := List.find?_some hf
    simp only [decide_eq_true_eq] at hkey
    cases h
    have : pair = (k, pair.2) := by
      cases pair
      simp_all
    rw [← this]
    exact hmem

/-- Well-formed broker state: every session's ring carries the session
id it was created with, and every stored record's turn id embeds that
full session id (as `TurnRingBuffer::push` guarantees). -/
def WellFormedSessions (s : BrokerState) : Prop :=
  ∀ p ∈ s.sessions, p.2.ring.session_id = p.1 ∧
    ∀ r ∈ p.2.ring.entries, ∃ q, r.turn_id = mkTurnId p.1 q

/-- C10: for every well-formed broker state and every session whose id
contains a colon, every turn stored in that session's ring is
unreachable by id — `get_turn` and `capture_by_id` on its turn id both
return `turn_not_found`, because the lookup splits the turn id on the
first colon and treats the prefix as the session id, while the stored
`turn_id` embeds the full colon-containing session id. -/
theorem C10_colon_session_turns_unreachable (s : BrokerState) (sid : List Nat)
    (e : SessionEntry) (r : TurnRecord)
    (hwf : WellFormedSessions s)
    (hlook : alistFind s.sessions sid = some e)
    (hcolon : 58 ∈ sid)
    (hr : r ∈ e.ring.entries) :
    s.getTurn r.turn_id = .error eTurnNotFound ∧
    s.captureById r.turn_id = .error eTurnNotFound := by
  obtain ⟨q, hq⟩ := (hwf (sid, e) (alistFind_mem _ _ _ hlook)).2 r hr
  obtain ⟨p, suf, hsid, hnp⟩ := exists_colon_split sid hcolon
  have htid : r.turn_id = p ++ 58 :: (suf ++ 58 :: natBytes q) := by
    rw [hq, mkTurnId, hsid]
    simp
  have hsplit : splitOnceColon r.turn_id = some (p, suf ++ 58 :: natBytes q) := by
    rw [htid]
    exact splitOnceColon_prefix p _ hnp
  have hnotfound : ∀ e2 : SessionEntry, alistFind s.sessions p = some e2 →
      e2.ring.get r.turn_id = none := by
    intro e2 he2
    have hwf2 := (hwf (p, e2) (alistFind_mem _ _ _ he2)).2
    unfold TurnRingBuffer.get
    rw [List.find?_eq_none]
    intro r2 hr2
    obtain ⟨q2, hq2⟩ := hwf2 r2 hr2
    simp only [decide_eq_true_eq]
    intro heq
    rw [hq2, mkTurnId, htid] at heq
    have hsuffix : natBytes q2 = suf ++ 58 :: natBytes q := by
      have h1 := List.append_cancel_left heq
      exact List.cons_injective h1
    have : (58 : Nat) ∈ natBytes q2 := by
      rw [hsuffix]
      simp
    exact colon_not_mem_natBytes q2 this
  constructor
  · simp only [BrokerState.getTurn, hsplit]
    cases he2 : alistFind s.sessions p with
    | none => simp [he2]
    | some e2 => simp [he2, hnotfound e2 he2]
  · simp only [BrokerState.captureById, hsplit]
    cases he2 : alistFind s.sessions p with
    | none => simp [he2]
    | some e2 => simp [he2, hnotfound e2 he2]

/-- A broker state whose single session id `[97, 58, 98]` (the text
a:b) contains a colon and stores one turn with id `a:b:1`. -/
def colonState : BrokerState :=
  { sessions :=
      [([97, 58, 98],
        ⟨1, 42,
          { entries := [⟨[97, 58, 98, 58, 49], [120], 5, 1, false, false⟩],
            capacity := 2, max_turn_bytes := 100, next_seq := 2,
            session_id := [97, 58, 98] }⟩)]
    relay_buffer := none
    connections := [(1, Role.wrapper)]
    ring_config := ⟨2, 100⟩ }

/-- Witness for C10 at `colonState`: the stored turn `a:b:1` is
unreachable by `get_turn` and `capture_by_id`. -/
theorem C10_colon_session_turns_unreachable_witness :
    colonState.getTurn [97, 58, 98, 58, 49] = .error eTurnNotFound ∧
    colonState.captureById [97, 58, 98, 58, 49] = .error eTurnNotFound := by
  have hwf : WellFormedSessions colonState := by
    intro p hp
    simp only [colonState, List.mem_singleton] at hp
    subst hp
    refine ⟨rfl, ?_⟩
    intro r hr
    simp only [List.mem_singleton] at hr
    subst hr
    exact ⟨1, by decide⟩
  have h := C10_colon_session_turns_unreachable colonState [97, 58, 98]
    ⟨1, 42,
      { entries := [⟨[97, 58, 98, 58, 49], [120], 5, 1, false, false⟩],
        capacity := 2, max_turn_bytes := 100, next_seq := 2,
        session_id := [97, 58, 98] }⟩
    ⟨[97, 58, 98, 58, 49], [120], 5, 1, false, false⟩
    hwf (by decide) (by decide) (by decide)
  exact h

/-! ## Deliver dispatch (spec §4.4 Deliver)

The broker-side handling of the `deliver` request is not present under
the sources (only client-side senders and the sink I/O functions in
`src/broker/sink.rs` exist), so it is modelled from the specification.
-/

/-- Modelled from the spec: a sink side effect emitted by the deliver
dispatcher.  The spec's `Deliver` handler in the broker is missing
from the sources; side effects are values routed by the broker loop
(spec §4.4), and every sink receives `(content, metadata)`. -/
inductive SinkEffect where
  | clipboard (content : List Nat) (metadata : SinkMetadata)
  | fileWrite (path : List Nat) (content : List Nat) (metadata : SinkMetadata)
  | inject (action : InjectAction)
deriving DecidableEq

/-- Modelled from the spec: the deliver dispatcher (spec §4.4
Deliver).  Dispatches on the sink name: `clipboard` requires the relay
buffer to be non-empty and emits a clipboard-write effect; `file`
requires a path and emits a file-write effect carrying the relay
content; `inject` with a session behaves like `paste`; any other sink
name answers `unknown_sink`. -/
def handleDeliver (s : BrokerState) (id : Nat) (sink : List Nat)
    (session path : Option (List Nat)) : Message × Option SinkEffect :=
  if sink = sinkClipboard then
    match s.relayContent with
    | none => (errorResponse id eBufferEmpty, none)
    | some (content, meta) => (okResponse id, some (.clipboard content meta))
  else if sink = sinkFile then
    match path with
    | none => (errorResponse id eFileWriteFailed, none)
    | some p =>
      match s.relayContent with
      | none => (errorResponse id eBufferEmpty, none)
      | some (content, meta) => (okResponse id, some (.fileWrite p content meta))
  else if sink = sinkInject then
    match session with
    | none => (errorResponse id eSessionNotFound, none)
    | some sid =>
      match s.pasteContent sid with
      | .ok (content, target) => (okResponse id, some (.inject ⟨target, .inject 0 content⟩))
      | .error reason => (errorResponse id reason, none)
  else (errorResponse id eUnknownSink, none)

/-- Modelled from the spec: sink delivery is best-effort — the broker
loop replaces the dispatcher's optimistic `ok` with `clipboard_failed`
or `file_write_failed` if the sink step fails (spec §7 Sink errors). -/
def applySinkOutcome (resp : Message) (eff : Option SinkEffect) (success : Bool) :
    Message :=
  match eff, success with
  | none, _ => resp
  | some _, true => resp
  | some (.clipboard _ _), false => errorResponse resp.msgId eClipboardFailed
  | some (.fileWrite _ _ _), false => errorResponse resp.msgId eFileWriteFailed
  | some (.inject _), false => resp

theorem applySinkOutcome_error (resp : Message) (eff : Option SinkEffect)
    (success : Bool) (id : Nat) (er : List Nat)
    (h : applySinkOutcome resp eff success = errorResponse id er) :
    resp = errorResponse id er ∨ er = eClipboardFailed ∨ er = eFileWriteFailed := by
  cases eff with
  | none => exact Or.inl h
  | some ef =>
    cases success with
    | true => exact Or.inl (by simpa [applySinkOutcome] using h)
    | false =>
      cases ef with
      | clipboard c m =>
        have h2 : id = resp.msgId ∧ er = eClipboardFailed := by
          simpa [applySinkOutcome, errorResponse] using h.symm
        exact Or.inr (Or.inl h2.2)
      | fileWrite p c m =>
        have h2 : id = resp.msgId ∧ er = eFileWriteFailed := by
          simpa [applySinkOutcome, errorResponse] using h.symm
        exact Or.inr (Or.inr h2.2)
      | inject a => exact Or.inl (by simpa [applySinkOutcome] using h)

theorem handleDeliver_noninject_resp (s : BrokerState) (id : Nat)
    (sink : List Nat) (session path : Option (List Nat))
    (hni : sink ≠ sinkInject) :
    (handleDeliver s id sink session path).1 = okResponse id ∨
    ∃ er0, (handleDeliver s id sink session path).1 = errorResponse id er0 ∧
      er0 ∈ [eBufferEmpty, eFileWriteFailed, eUnknownSink] := by
  by_cases h1 : sink = sinkClipboard
  · subst h1
    cases hrel : s.relay_buffer with
    | none => exact Or.inr ⟨eBufferEmpty,
        by simp [handleDeliver, BrokerState.relayContent, hrel], by simp⟩
    | some re =>
      exact Or.inl (by simp [handleDeliver, BrokerState.relayContent, hrel])
  · by_cases h2 : sink = sinkFile
    · subst h2
      cases path with
      | none => exact Or.inr ⟨eFileWriteFailed, by simp [handleDeliver, h1], by simp⟩
      | some p =>
        cases hrel : s.relay_buffer with
        | none => exact Or.inr ⟨eBufferEmpty,
            by simp [handleDeliver, h1, BrokerState.relayContent, hrel], by simp⟩
        | some re =>
          exact Or.inl (by simp [handleDeliver, h1, BrokerState.relayContent, hrel])
    · exact Or.inr ⟨eUnknownSink, by simp [handleDeliver, h1, h2, hni], by simp⟩

/-- C5: a deliver request is dispatched on its sink name — `clipboard`
requires the relay buffer to be non-empty (`buffer_empty` otherwise)
and invokes the clipboard writer on the relay content and metadata;
`file` requires a path and writes the relay content; `inject` with a
session behaves like `paste`; an unrecognized sink answers
`unknown_sink`; and for the non-inject sinks the possible errors are
exactly `buffer_empty`, `clipboard_failed`, `file_write_failed` and
`unknown_sink`. -/
theorem C5_deliver_dispatch (s : BrokerState) (id : Nat)
    (session path : Option (List Nat)) :
    (s.relay_buffer = none →
      handleDeliver s id sinkClipboard session path =
        (errorResponse id eBufferEmpty, none)) ∧
    (∀ re, s.relay_buffer = some re →
      handleDeliver s id sinkClipboard session path =
        (okResponse id, some (.clipboard re.content re.metadata))) ∧
    (handleDeliver s id sinkFile session none =
      (errorResponse id eFileWriteFailed, none)) ∧
    (∀ p re, s.relay_buffer = some re →
      handleDeliver s id sinkFile session (some p) =
        (okResponse id, some (.fileWrite p re.content re.metadata))) ∧
    (∀ sid,
      (∀ content target, s.pasteContent sid = .ok (content, target) →
        handleDeliver s id sinkInject (some sid) path =
          (okResponse id, some (.inject ⟨target, .inject 0 content⟩))) ∧
      (∀ reason, s.pasteContent sid = .error reason →
        handleDeliver s id sinkInject (some sid) path =
          (errorResponse id reason, none))) ∧
    (∀ sink, sink ≠ sinkClipboard → sink ≠ sinkFile → sink ≠ sinkInject →
      handleDeliver s id sink session path = (errorResponse id eUnknownSink, none)) ∧
    (∀ sink eff success er, sink ≠ sinkInject →
      applySinkOutcome (handleDeliver s id sink session path).1 eff success =
        errorResponse id er →
      er ∈ [eBufferEmpty, eClipboardFailed, eFileWriteFailed, eUnknownSink]) := by
  have hcf : sinkClipboard ≠ sinkFile := by decide
  have hfc : ¬ sinkFile = sinkClipboard := by decide
  have hic : ¬ sinkInject = sinkClipboard := by decide
  have hif : ¬ sinkInject = sinkFile := by decide
  refine ⟨?_, ?_, ?_, ?_, ?_, ?_, ?_⟩
  · intro hnone
    simp [handleDeliver, BrokerState.relayContent, hnone]
  · intro re hre
    simp [handleDeliver, BrokerState.relayContent, hre]
  · simp [handleDeliver, hfc]
  · intro p re hre
    simp [handleDeliver, hfc, BrokerState.relayContent, hre]
  · intro sid
    constructor
    · intro content target hok
      simp [handleDeliver, hic, hif, hok]
    · intro reason herr
      simp [handleDeliver, hic, hif, herr]
  · intro sink h1 h2 h3
    simp [handleDeliver, h1, h2, h3]
  · intro sink eff success er hni happ
    have hshape := applySinkOutcome_error
      (handleDeliver s id sink session path).1 eff success id er happ
    rcases hshape with hresp | her | her
    · rcases handleDeliver_noninject_resp s id sink session path hni with hok | ⟨er0, he, hm⟩
      · rw [hok] at hresp
        exact absurd hresp (by simp [okResponse, errorResponse])
      · rw [he] at hresp
        have : er0 = er := by
          simpa [errorResponse] using hresp
        subst this
        simp only [List.mem_cons, List.mem_singleton] at hm ⊢
        tauto
    · simp [her]
    · simp [her]

/-- Witness for C5 at `exampleState`: clipboard delivery with a full
relay buffer emits the clipboard effect; inject delivery behaves like
paste; an unknown sink answers `unknown_sink`. -/
theorem C5_deliver_dispatch_witness :
    handleDeliver exampleState 3 sinkClipboard none none =
      (okResponse 3, some (.clipboard [97] ⟨[115, 58, 49], 5, 1, false, false⟩)) ∧
    handleDeliver exampleState 3 sinkInject (some [115]) none =
      (okResponse 3, some (.inject ⟨1, .inject 0 [97]⟩)) ∧
    handleDeliver exampleState 3 [122] none none =
      (errorResponse 3 eUnknownSink, none) := by
  have h := C5_deliver_dispatch exampleState 3 none none
  refine ⟨?_, ?_, ?_⟩
  · exact h.2.1 ⟨[97], ⟨[115, 58, 49], 5, 1, false, false⟩⟩ rfl
  · exact ((C5_deliver_dispatch exampleState 3 (some [115]) none).2.2.2.2.1 [115]).1
      [97] 1 rfl
  · exact h.2.2.2.2.2.1 [122] (by decide) (by decide) (by decide)

/-! ## MessagePack primitives

Modelled from the spec: the wire format is MessagePack maps keyed on
field names (spec §4.2, §6 Frame format); the serializer is the
external `rmp_serde` named serializer (not part of this repository),
re-expressed here byte-for-byte: minimal-width unsigned integers,
fixstr/str8/16/32 strings, bin8/16/32 byte arrays, `0xc2/0xc3`
booleans, `0xc0` nil, fixmap/map16/32 maps, fixarray/array16/32
arrays.
-/

/-- Big-endian bytes of a 16-bit value. -/
def be16 (n : Nat) : List Nat := [n / 256 % 256, n % 256]

/-- Big-endian bytes of a 32-bit value. -/
def be32 (n : Nat) : List Nat :=
  [n / 16777216 % 256, n / 65536 % 256, n / 256 % 256, n % 256]

/-- Big-endian bytes of a 64-bit value. -/
def be64 (n : Nat) : List Nat :=
  [n / 72057594037927936 % 256, n / 281474976710656 % 256,
   n / 1099511627776 % 256, n / 4294967296 % 256,
   n / 16777216 % 256, n / 65536 % 256, n / 256 % 256, n % 256]

/-- Minimal-width MessagePack unsigned integer encoding. -/
def encUint (n : Nat) : List Nat :=
  if n < 128 then [n]
  else if n < 256 then [204, n]
  else if n < 65536 then 205 :: be16 n
  else if n < 4294967296 then 206 :: be32 n
  else 207 :: be64 n

/-- MessagePack unsigned integer decoding. -/
def decUint : List Nat → Option (Nat × List Nat)
  | [] => none
  | b :: rest =>
    if b < 128 then some (b, rest)
    else if b = 204 then
      match rest with
      | x :: r => some (x, r)
      | [] => none
    else if b = 205 then
      match rest with
      | x :: y :: r => some (x * 256 + y, r)
      | _ => none
    else if b = 206 then
      match rest with
      | x :: y :: z :: w :: r => some (((x * 256 + y) * 256 + z) * 256 + w, r)
      | _ => none
    else if b = 207 then
      match rest with
      | x1 :: x2 :: x3 :: x4 :: x5 :: x6 :: x7 :: x8 :: r =>
        some (((((((x1 * 256 + x2) * 256 + x3) * 256 + x4) * 256 + x5) * 256 + x6)
          * 256 + x7) * 256 + x8, r)
      | _ => none
    else none

theorem decUint_at_204 (x : Nat) (r : List Nat) :
    decUint (204 :: x :: r) = some (x, r) := rfl

theorem decUint_at_205 (x y : Nat) (r : List Nat) :
    decUint (205 :: x :: y :: r) = some (x * 256 + y, r) := rfl

theorem decUint_at_206 (x y z w : Nat) (r : List Nat) :
    decUint (206 :: x :: y :: z :: w :: r) =
      some (((x * 256 + y) * 256 + z) * 256 + w, r) := rfl

theorem decUint_at_207 (x1 x2 x3 x4 x5 x6 x7 x8 : Nat) (r : List Nat) :
    decUint (207 :: x1 :: x2 :: x3 :: x4 :: x5 :: x6 :: x7 :: x8 :: r) =
      some (((((((x1 * 256 + x2) * 256 + x3) * 256 + x4) * 256 + x5) * 256 + x6)
        * 256 + x7) * 256 + x8, r) := rfl

theorem decUint_enc (n : Nat) (h : n < 2 ^ 64) (rest : List Nat) :
    decUint (encUint n ++ rest) = some (n, rest) := by
  by_cases h1 : n < 128
  · simp [encUint, decUint, h1]
  · by_cases h2 : n < 256
    · rw [encUint, if_neg h1, if_pos h2, List.cons_append, List.cons_append,
        List.nil_append, decUint_at_204]
    · by_cases h3 : n < 65536
      · rw [encUint, if_neg h1, if_neg h2, if_pos h3]
        show decUint (205 :: _ :: _ :: rest) = _
        rw [decUint_at_205]
        refine congrArg (fun v => some (v, rest)) ?_
        omega
      · by_cases h4 : n < 4294967296
        · rw [encUint, if_neg h1, if_neg h2, if_neg h3, if_pos h4]
          show decUint (206 :: _ :: _ :: _ :: _ :: rest) = _
          rw [decUint_at_206]
          refine congrArg (fun v => some (v, rest)) ?_
          omega
        · rw [encUint, if_neg h1, if_neg h2, if_neg h3, if_neg h4]
          show decUint (207 :: _ :: _ :: _ :: _ :: _ :: _ :: _ :: _ :: rest) = _
          rw [decUint_at_207]
          refine congrArg (fun v => some (v, rest)) ?_
          omega

/-- MessagePack string encoding of a byte list (fixstr/str8/16/32). -/
def encStr (s : List Nat) : List Nat :=
  if s.length < 32 then (160 + s.length) :: s
  else if s.length < 256 then 217 :: s.length :: s
  else if s.length < 65536 then 218 :: (be16 s.length ++ s)
  else 219 :: (be32 s.length ++ s)

/-- MessagePack string decoding. -/
def decStr : List Nat → Option (List Nat × List Nat)
  | [] => none
  | b :: rest =>
    if 160 ≤ b ∧ b ≤ 191 then
      if rest.length < b - 160 then none
      else some (rest.take (b - 160), rest.drop (b - 160))
    else if b = 217 then
      match rest with
      | l :: r => if r.length < l then none else some (r.take l, r.drop l)
      | [] => none
    else if b = 218 then
      match rest with
      | x :: y :: r =>
        if r.length < x * 256 + y then none
        else some (r.take (x * 256 + y), r.drop (x * 256 + y))
      | _ => none
    else if b = 219 then
      match rest with
      | x :: y :: z :: w :: r =>
        if r.length < ((x * 256 + y) * 256 + z) * 256 + w then none
        else some (r.take (((x * 256 + y) * 256 + z) * 256 + w),
          r.drop (((x * 256 + y) * 256 + z) * 256 + w))
      | _ => none
    else none

theorem take_drop_append (s rest : List Nat) (l : Nat) (hl : l = s.length) :
    ¬ ((s ++ rest).length < l) ∧
    (s ++ rest).take l = s ∧ (s ++ rest).drop l = rest := by
  subst hl
  refine ⟨by simp, ?_, ?_⟩
  · exact List.take_left s rest
  · exact List.drop_left s rest

theorem decStr_fixstr (b : Nat) (hb : 160 ≤ b ∧ b ≤ 191) (r : List Nat) :
    decStr (b :: r) =
      (if r.length < b - 160 then none
       else some (r.take (b - 160), r.drop (b - 160))) := by
  simp [decStr, hb]

theorem decStr_at_217 (l : Nat) (r : List Nat) :
    decStr (217 :: l :: r) =
      (if r.length < l then none else some (r.take l, r.drop l)) := rfl

theorem decStr_at_218 (x y : Nat) (r : List Nat) :
    decStr (218 :: x :: y :: r) =
      (if r.length < x * 256 + y then none
       else some (r.take (x * 256 + y), r.drop (x * 256 + y))) := rfl

theorem decStr_at_219 (x y z w : Nat) (r : List Nat) :
    decStr (219 :: x :: y :: z :: w :: r) =
      (if r.length < ((x * 256 + y) * 256 + z) * 256 + w then none
       else some (r.take (((x * 256 + y) * 256 + z) * 256 + w),
         r.drop (((x * 256 + y) * 256 + z) * 256 + w))) := rfl

theorem decStr_enc (s : List Nat) (h : s.length < 2 ^ 32) (rest : List Nat) :
    decStr (encStr s ++ rest) = some (s, rest) := by
  by_cases h1 : s.length < 32
  · obtain ⟨hn, ht, hd⟩ := take_drop_append s rest (160 + s.length - 160) (by omega)
    rw [encStr, if_pos h1, List.cons_append, decStr_fixstr _ (by omega), if_neg hn,
      ht, hd]
  · by_cases h2 : s.length < 256
    · obtain ⟨hn, ht, hd⟩ := take_drop_append s rest s.length rfl
      rw [encStr, if_neg h1, if_pos h2, List.cons_append, List.cons_append,
        decStr_at_217, if_neg hn, ht, hd]
    · by_cases h3 : s.length < 65536
      · obtain ⟨hn, ht, hd⟩ := take_drop_append s rest
          (s.length / 256 % 256 * 256 + s.length % 256) (by omega)
        rw [encStr, if_neg h1, if_neg h2, if_pos h3]
        show decStr (218 :: _ :: _ :: (s ++ rest)) = _
        rw [decStr_at_218, if_neg hn, ht, hd]
      · obtain ⟨hn, ht, hd⟩ := take_drop_append s rest
          (((s.length / 16777216 % 256 * 256 + s.length / 65536 % 256) * 256 +
            s.length / 256 % 256) * 256 + s.length % 256) (by omega)
        rw [encStr, if_neg h1, if_neg h2, if_neg h3]
        show decStr (219 :: _ :: _ :: _ :: _ :: (s ++ rest)) = _
        rw [decStr_at_219, if_neg hn, ht, hd]

/-- MessagePack binary encoding of a byte list (bin8/16/32), used for
`serde_bytes` fields. -/
def encBin (s : List Nat) : List Nat :=
  if s.length < 256 then 196 :: s.length :: s
  else if s.length < 65536 then 197 :: (be16 s.length ++ s)
  else 198 :: (be32 s.length ++ s)

/-- MessagePack binary decoding. -/
def decBin : List Nat → Option (List Nat × List Nat)
  | [] => none
  | b :: rest =>
    if b = 196 then
      match rest with
      | l :: r => if r.length < l then none else some (r.take l, r.drop l)
      | [] => none
    else if b = 197 then
      match rest with
      | x :: y :: r =>
        if r.length < x * 256 + y then none
        else some (r.take (x * 256 + y), r.drop (x * 256 + y))
      | _ => none
    else if b = 198 then
      match rest with
      | x :: y :: z :: w :: r =>
        if r.length < ((x * 256 + y) * 256 + z) * 256 + w then none
        else some (r.take (((x * 256 + y) * 256 + z) * 256 + w),
          r.drop (((x * 256 + y) * 256 + z) * 256 + w))
      | _ => none
    else none

theorem decBin_at_196 (l : Nat) (r : List Nat) :
    decBin (196 :: l :: r) =
      (if r.length < l then none else some (r.take l, r.drop l)) := rfl

theorem decBin_at_197 (x y : Nat) (r : List Nat) :
    decBin (197 :: x :: y :: r) =
      (if r.length < x * 256 + y then none
       else some (r.take (x * 256 + y), r.drop (x * 256 + y))) := rfl

theorem decBin_at_198 (x y z w : Nat) (r : List Nat) :
    decBin (198 :: x :: y :: z :: w :: r) =
      (if r.length < ((x * 256 + y) * 256 + z) * 256 + w then none
       else some (r.take (((x * 256 + y) * 256 + z) * 256 + w),
         r.drop (((x * 256 + y) * 256 + z) * 256 + w))) := rfl

theorem decBin_enc (s : List Nat) (h : s.length < 2 ^ 32) (rest : List Nat) :
    decBin (encBin s ++ rest) = some (s, rest) := by
  by_cases h1 : s.length < 256
  · obtain ⟨hn, ht, hd⟩ := take_drop_append s rest s.length rfl
    rw [encBin, if_pos h1, List.cons_append, List.cons_append, decBin_at_196,
      if_neg hn, ht, hd]
  · by_cases h2 : s.length < 65536
    · obtain ⟨hn, ht, hd⟩ := take_drop_append s rest
        (s.length / 256 % 256 * 256 + s.length % 256) (by omega)
      rw [encBin, if_neg h1, if_pos h2]
      show decBin (197 :: _ :: _ :: (s ++ rest)) = _
      rw [decBin_at_197, if_neg hn, ht, hd]
    · obtain ⟨hn, ht, hd⟩ := take_drop_append s rest
        (((s.length / 16777216 % 256 * 256 + s.length / 65536 % 256) * 256 +
          s.length / 256 % 256) * 256 + s.length % 256) (by omega)
      rw [encBin, if_neg h1, if_neg h2]
      show decBin (198 :: _ :: _ :: _ :: _ :: (s ++ rest)) = _
      rw [decBin_at_198, if_neg hn, ht, hd]

/-- MessagePack boolean encoding. -/
def encBool (b : Bool) : List Nat := if b then [195] else [194]

/-- MessagePack boolean decoding. -/
def decBool : List Nat → Option (Bool × List Nat)
  | b :: rest =>
    if b = 195 then some (true, rest)
    else if b = 194 then some (false, rest)
    else none
  | [] => none

theorem decBool_enc (b : Bool) (rest : List Nat) :
    decBool (encBool b ++ rest) = some (b, rest) := by
  cases b <;> rfl

/-- Map header encoding (fixmap/map16/map32). -/
def encMapHeader (n : Nat) : List Nat :=
  if n < 16 then [128 + n]
  else if n < 65536 then 222 :: be16 n
  else 223 :: be32 n

/-- Map header decoding. -/
def decMapHeader : List Nat → Option (Nat × List Nat)
  | [] => none
  | b :: rest =>
    if 128 ≤ b ∧ b ≤ 143 then some (b - 128, rest)
    else if b = 222 then
      match rest with
      | x :: y :: r => some (x * 256 + y, r)
      | _ => none
    else if b = 223 then
      match rest with
      | x :: y :: z :: w :: r => some (((x * 256 + y) * 256 + z) * 256 + w, r)
      | _ => none
    else none

theorem decMapHeader_enc (n : Nat) (h : n < 16) (rest : List Nat) :
    decMapHeader (encMapHeader n ++ rest) = some (n, rest) := by
  have hb : 128 ≤ 128 + n ∧ 128 + n ≤ 143 := by omega
  rw [encMapHeader, if_pos h, List.cons_append, List.nil_append]
  simp [decMapHeader, hb]

/-- Array header encoding (fixarray/array16/array32). -/
def encArrHeader (n : Nat) : List Nat :=
  if n < 16 then [144 + n]
  else if n < 65536 then 220 :: be16 n
  else 221 :: be32 n

/-- Array header decoding. -/
def decArrHeader : List Nat → Option (Nat × List Nat)
  | [] => none
  | b :: rest =>
    if 144 ≤ b ∧ b ≤ 159 then some (b - 144, rest)
    else if b = 220 then
      match rest with
      | x :: y :: r => some (x * 256 + y, r)
      | _ => none
    else if b = 221 then
      match rest with
      | x :: y :: z :: w :: r => some (((x * 256 + y) * 256 + z) * 256 + w, r)
      | _ => none
    else none

theorem decArrHeader_at_220 (x y : Nat) (r : List Nat) :
    decArrHeader (220 :: x :: y :: r) = some (x * 256 + y, r) := rfl

theorem decArrHeader_at_221 (x y z w : Nat) (r : List Nat) :
    decArrHeader (221 :: x :: y :: z :: w :: r) =
      some (((x * 256 + y) * 256 + z) * 256 + w, r) := rfl

theorem decArrHeader_enc (n : Nat) (h : n < 2 ^ 32) (rest : List Nat) :
    decArrHeader (encArrHeader n ++ rest) = some (n, rest) := by
  by_cases h1 : n < 16
  · have hb : 144 ≤ 144 + n ∧ 144 + n ≤ 159 := by omega
    rw [encArrHeader, if_pos h1, List.cons_append, List.nil_append]
    simp [decArrHeader, hb]
  · by_cases h2 : n < 65536
    · rw [encArrHeader, if_neg h1, if_pos h2]
      show decArrHeader (220 :: _ :: _ :: rest) = _
      rw [decArrHeader_at_220]
      refine congrArg (fun v => some (v, rest)) ?_
      omega
    · rw [encArrHeader, if_neg h1, if_neg h2]
      show decArrHeader (221 :: _ :: _ :: _ :: _ :: rest) = _
      rw [decArrHeader_at_221]
      refine congrArg (fun v => some (v, rest)) ?_
      omega

/-- Nil (`0xc0`) or unsigned integer — the serialization of a plain
`Option<u32>` field without `skip_serializing_if`. -/
def encNilOrUint : Option Nat → List Nat
  | none => [192]
  | some n => encUint n

/-- Decode a nil-or-uint value. -/
def decNilOrUint (input : List Nat) : Option (Option Nat × List Nat) :=
  match input with
  | 192 :: rest => some (none, rest)
  | _ =>
    match decUint input with
    | some (n, rest) => some (some n, rest)
    | none => none

theorem decNilOrUint_enc (o : Option Nat) (h : ∀ n, o = some n → n < 2 ^ 64)
    (rest : List Nat) : decNilOrUint (encNilOrUint o ++ rest) = some (o, rest) := by
  cases o with
  | none => rfl
  | some n =>
    have hn := h n rfl
    have hd := decUint_enc n hn rest
    have hne : ∀ r, encUint n ++ rest ≠ 192 :: r := by
      intro r hcontra
      unfold encUint at hcontra
      by_cases h1 : n < 128
      · rw [if_pos h1] at hcontra
        simp at hcontra
        omega
      · by_cases h2 : n < 256
        · rw [if_neg h1, if_pos h2] at hcontra
          simp at hcontra
        · by_cases h3 : n < 65536
          · rw [if_neg h1, if_neg h2, if_pos h3] at hcontra
            simp at hcontra
          · by_cases h4 : n < 4294967296
            · rw [if_neg h1, if_neg h2, if_neg h3, if_pos h4] at hcontra
              simp at hcontra
            · rw [if_neg h1, if_neg h2, if_neg h3, if_neg h4] at hcontra
              simp at hcontra
    unfold decNilOrUint
    split
    · rename_i heq
      exact absurd heq (hne _)
    · rw [encNilOrUint, hd]

/-! ## Enum, descriptor and vector serialization -/

/-- Role serialization: the lowercase variant name as a string. -/
def encRole : Role → List Nat
  | .wrapper => encStr vWrapper
  | .client => encStr vClient

/-- Role deserialization. -/
def decRole (input : List Nat) : Option (Role × List Nat) :=
  match decStr input with
  | some (s, r) =>
    if s = vWrapper then some (.wrapper, r)
    else if s = vClient then some (.client, r)
    else none
  | none => none

theorem decRole_enc (role : Role) (rest : List Nat) :
    decRole (encRole role ++ rest) = some (role, rest) := by
  cases role with
  | wrapper =>
    unfold encRole decRole
    rw [decStr_enc vWrapper (by decide) rest]
    simp
  | client =>
    unfold encRole decRole
    rw [decStr_enc vClient (by decide) rest]
    have hne : ¬ vClient = vWrapper := by decide
    simp [hne]

/-- Status serialization: the lowercase variant name as a string. -/
def encStatus : Status → List Nat
  | .ok => encStr vOk
  | .error => encStr vError

/-- Status deserialization. -/
def decStatus (input : List Nat) : Option (Status × List Nat) :=
  match decStr input with
  | some (s, r) =>
    if s = vOk then some (.ok, r)
    else if s = vError then some (.error, r)
    else none
  | none => none

theorem decStatus_enc (st : Status) (rest : List Nat) :
    decStatus (encStatus st ++ rest) = some (st, rest) := by
  cases st with
  | ok =>
    unfold encStatus decStatus
    rw [decStr_enc vOk (by decide) rest]
    simp
  | error =>
    unfold encStatus decStatus
    rw [decStr_enc vError (by decide) rest]
    have hne : ¬ vError = vOk := by decide
    simp [hne]

/-- Parse one mandatory named field: the key string must match. -/
def decField {α : Type} (name : List Nat)
    (dec : List Nat → Option (α × List Nat)) (input : List Nat) :
    Option (α × List Nat) :=
  match decStr input with
  | some (k, r) => if k = name then dec r else none
  | none => none

theorem decField_of_enc {α : Type} (name : List Nat) (hname : name.length < 2 ^ 32)
    (dec : List Nat → Option (α × List Nat)) (tail : List Nat) (v : α)
    (rest : List Nat) (hdec : dec tail = some (v, rest)) :
    decField name dec (encStr name ++ tail) = some (v, rest) := by
  unfold decField
  rw [decStr_enc name hname tail]
  simp [hdec]

/-- Parse one optional named field serialized with
`skip_serializing_if`: when the next key does not match (or the input
is exhausted), the field is absent and nothing is consumed. -/
def decOptField {α : Type} (name : List Nat)
    (dec : List Nat → Option (α × List Nat)) (input : List Nat) :
    Option (Option α × List Nat) :=
  match decStr input with
  | some (k, r) =>
    if k = name then
      match dec r with
      | some (v, r2) => some (some v, r2)
      | none => none
    else some (none, input)
  | none => some (none, input)

/-- Encoding of an optional field under `skip_serializing_if`. -/
def encOptField {α : Type} (name : List Nat) (enc : α → List Nat) :
    Option α → List Nat
  | none => []
  | some v => encStr name ++ enc v

/-- Input whose first value, if it is a string, differs from `name` —
holds of the encoding of any later field of a message. -/
def KeyFree (name input : List Nat) : Prop :=
  ∀ k r, decStr input = some (k, r) → k ≠ name

theorem keyFree_nil (name : List Nat) : KeyFree name [] := by
  intro k r h
  cases h

theorem keyFree_encStr (name other : List Nat) (hlen : other.length < 2 ^ 32)
    (hne : other ≠ name) (tail : List Nat) :
    KeyFree name (encStr other ++ tail) := by
  intro k r h
  rw [decStr_enc other hlen tail] at h
  cases h
  exact hne

theorem decOptField_some {α : Type} (name : List Nat) (hname : name.length < 2 ^ 32)
    (dec : List Nat → Option (α × List Nat)) (enc : α → List Nat) (v : α)
    (tail rest : List Nat) (hdec : dec tail = some (v, rest)) :
    decOptField name dec (encStr name ++ tail) = some (some v, rest) := by
  unfold decOptField
  rw [decStr_enc name hname tail]
  simp [hdec]

theorem decOptField_none {α : Type} (name : List Nat)
    (dec : List Nat → Option (α × List Nat)) (input : List Nat)
    (hfree : KeyFree name input) :
    decOptField name dec input = some (none, input) := by
  unfold decOptField
  cases h : decStr input with
  | none => rfl
  | some kr =>
    have hne := hfree kr.1 kr.2 (by rw [h])
    simp [hne]

/-- Serialize a SessionDescriptor as a 3-entry map. -/
def encSessionDescriptor (d : SessionDescriptor) : List Nat :=
  encMapHeader 3 ++ encStr fSession ++ encStr d.session ++
  encStr fPid ++ encUint d.pid ++ encStr fHasTurn ++ encBool d.has_turn

/-- Deserialize a SessionDescriptor. -/
def decSessionDescriptor (input : List Nat) : Option (SessionDescriptor × List Nat) :=
  match decMapHeader input with
  | none => none
  | some (_, r0) =>
    match decField fSession decStr r0 with
    | none => none
    | some (session, r1) =>
      match decField fPid decUint r1 with
      | none => none
      | some (pid, r2) =>
        match decField fHasTurn decBool r2 with
        | none => none
        | some (has_turn, r3) => some (⟨session, pid, has_turn⟩, r3)

/-- Validity of a SessionDescriptor as a Rust value. -/
def SessionDescriptorWF (d : SessionDescriptor) : Prop :=
  d.session.length < 2 ^ 32 ∧ d.pid < 2 ^ 32

theorem decSessionDescriptor_enc (d : SessionDescriptor)
    (h : SessionDescriptorWF d) (rest : List Nat) :
    decSessionDescriptor (encSessionDescriptor d ++ rest) = some (d, rest) := by
  obtain ⟨h1, h2⟩ := h
  have hs := decStr_enc d.session h1
    (encStr fPid ++ (encUint d.pid ++ (encStr fHasTurn ++ (encBool d.has_turn ++ rest))))
  have hp := decUint_enc d.pid (by omega)
    (encStr fHasTurn ++ (encBool d.has_turn ++ rest))
  have hh := decBool_enc d.has_turn rest
  have f1 := decField_of_enc fSession (by decide) decStr _ _ _ hs
  have f2 := decField_of_enc fPid (by decide) decUint _ _ _ hp
  have f3 := decField_of_enc fHasTurn (by decide) decBool _ _ _ hh
  have f0 := decMapHeader_enc 3 (by omega)
    (encStr fSession ++ (encStr d.session ++ (encStr fPid ++ (encUint d.pid ++
      (encStr fHasTurn ++ (encBool d.has_turn ++ rest))))))
  simp only [encSessionDescriptor, decSessionDescriptor, List.append_assoc,
    f0, f1, f2, f3]

/-- Serialize a TurnDescriptor as a 5-entry map. -/
def encTurnDescriptor (d : TurnDescriptor) : List Nat :=
  encMapHeader 5 ++ encStr fTurnId ++ encStr d.turn_id ++
  encStr fTimestamp ++ encUint d.timestamp ++
  encStr fByteLength ++ encUint d.byte_length ++
  encStr fInterrupted ++ encBool d.interrupted ++
  encStr fTruncated ++ encBool d.truncated

/-- Deserialize a TurnDescriptor. -/
def decTurnDescriptor (input : List Nat) : Option (TurnDescriptor × List Nat) :=
  match decMapHeader input with
  | none => none
  | some (_, r0) =>
    match decField fTurnId decStr r0 with
    | none => none
    | some (turn_id, r1) =>
      match decField fTimestamp decUint r1 with
      | none => none
      | some (timestamp, r2) =>
        match decField fByteLength decUint r2 with
        | none => none
        | some (byte_length, r3) =>
          match decField fInterrupted decBool r3 with
          | none => none
          | some (interrupted, r4) =>
            match decField fTruncated decBool r4 with
            | none => none
            | some (truncated, r5) =>
              some (⟨turn_id, timestamp, byte_length, interrupted, truncated⟩, r5)

/-- Validity of a TurnDescriptor as a Rust value. -/
def TurnDescriptorWF (d : TurnDescriptor) : Prop :=
  d.turn_id.length < 2 ^ 32 ∧ d.timestamp < 2 ^ 64 ∧ d.byte_length < 2 ^ 32

theorem decTurnDescriptor_enc (d : TurnDescriptor) (h : TurnDescriptorWF d)
    (rest : List Nat) :
    decTurnDescriptor (encTurnDescriptor d ++ rest) = some (d, rest) := by
  obtain ⟨h1, h2, h3⟩ := h
  have hs := decStr_enc d.turn_id h1
    (encStr fTimestamp ++ (encUint d.timestamp ++ (encStr fByteLength ++
      (encUint d.byte_length ++ (encStr fInterrupted ++ (encBool d.interrupted ++
        (encStr fTruncated ++ (encBool d.truncated ++ rest))))))))
  have hts := decUint_enc d.timestamp h2
    (encStr fByteLength ++ (encUint d.byte_length ++ (encStr fInterrupted ++
      (encBool d.interrupted ++ (encStr fTruncated ++ (encBool d.truncated ++ rest))))))
  have hbl := decUint_enc d.byte_length (by omega)
    (encStr fInterrupted ++ (encBool d.interrupted ++ (encStr fTruncated ++
      (encBool d.truncated ++ rest))))
  have hib := decBool_enc d.interrupted
    (encStr fTruncated ++ (encBool d.truncated ++ rest))
  have htb := decBool_enc d.truncated rest
  have f1 := decField_of_enc fTurnId (by decide) decStr _ _ _ hs
  have f2 := decField_of_enc fTimestamp (by decide) decUint _ _ _ hts
  have f3 := decField_of_enc fByteLength (by decide) decUint _ _ _ hbl
  have f4 := decField_of_enc fInterrupted (by decide) decBool _ _ _ hib
  have f5 := decField_of_enc fTruncated (by decide) decBool _ _ _ htb
  have f0 := decMapHeader_enc 5 (by omega)
    (encStr fTurnId ++ (encStr d.turn_id ++ (encStr fTimestamp ++ (encUint d.timestamp ++
      (encStr fByteLength ++ (encUint d.byte_length ++ (encStr fInterrupted ++
        (encBool d.interrupted ++ (encStr fTruncated ++ (encBool d.truncated ++ rest))))))))))
  simp only [encTurnDescriptor, decTurnDescriptor, List.append_assoc,
    f0, f1, f2, f3, f4, f5]

/-- Serialize a list as a MessagePack array. -/
def encVec {α : Type} (enc : α → List Nat) (l : List α) : List Nat :=
  encArrHeader l.length ++ (l.map enc).flatten

/-- Parse `n` consecutive values. -/
def decElems {α : Type} (dec : List Nat → Option (α × List Nat)) :
    Nat → List Nat → Option (List α × List Nat)
  | 0, input => some ([], input)
  | n + 1, input =>
    match dec input with
    | none => none
    | some (v, r) =>
      match decElems dec n r with
      | none => none
      | some (vs, r2) => some (v :: vs, r2)

/-- Deserialize a MessagePack array. -/
def decVec {α : Type} (dec : List Nat → Option (α × List Nat))
    (input : List Nat) : Option (List α × List Nat) :=
  match decArrHeader input with
  | none => none
  | some (n, r) => decElems dec n r

theorem decElems_enc {α : Type} (dec : List Nat → Option (α × List Nat))
    (enc : α → List Nat) (l : List α) (rest : List Nat)
    (h : ∀ x ∈ l, ∀ r, dec (enc x ++ r) = some (x, r)) :
    decElems dec l.length ((l.map enc).flatten ++ rest) = some (l, rest) := by
  induction l with
  | nil => rfl
  | cons x xs ih =>
    have hx := h x (by simp) ((xs.map enc).flatten ++ rest)
    have hrec := ih (fun y hy r => h y (by simp [hy]) r)
    simp only [List.length_cons, List.map_cons, List.flatten_cons, List.append_assoc,
      decElems, hx, hrec]

theorem decVec_enc {α : Type} (dec : List Nat → Option (α × List Nat))
    (enc : α → List Nat) (l : List α) (rest : List Nat)
    (hlen : l.length < 2 ^ 32)
    (h : ∀ x ∈ l, ∀ r, dec (enc x ++ r) = some (x, r)) :
    decVec dec (encVec enc l ++ rest) = some (l, rest) := by
  unfold encVec decVec
  have h0 := decArrHeader_enc l.length hlen ((l.map enc).flatten ++ rest)
  have h1 := decElems_enc dec enc l rest h
  simp only [List.append_assoc, h0, h1]

/-! ## Message serialization (`rmp_serde::to_vec_named` layout)

Each message is a map keyed on field names with the `type` tag first,
then the fields in declaration order; `Option` fields marked
`skip_serializing_if` are omitted when `None` (`error` and all
optional `response` fields), while `list_turns.limit` (plain
`Option<u32>` with only `serde(default)`) is always written, as nil
when `None`.
-/

/-- Number of map entries contributed by an optional field. -/
def optCount {α : Type} (o : Option α) : Nat := if o.isSome then 1 else 0

/-- Optional tail of a `response` body from the `turns` field on. -/
def encRT11 (turns : Option (List TurnDescriptor)) : List Nat :=
  encOptField fTurns (encVec encTurnDescriptor) turns

/-- Optional tail of a `response` body from the `truncated` field on. -/
def encRT10 (tb : Option Bool) (turns : Option (List TurnDescriptor)) : List Nat :=
  encOptField fTruncated encBool tb ++ encRT11 turns

/-- Optional tail of a `response` body from the `interrupted` field on. -/
def encRT9 (ib tb : Option Bool) (turns : Option (List TurnDescriptor)) : List Nat :=
  encOptField fInterrupted encBool ib ++ encRT10 tb turns

/-- Optional tail of a `response` body from the `byte_length` field on. -/
def encRT8 (bl : Option Nat) (ib tb : Option Bool)
    (turns : Option (List TurnDescriptor)) : List Nat :=
  encOptField fByteLength encUint bl ++ encRT9 ib tb turns

/-- Optional tail of a `response` body from the `timestamp` field on. -/
def encRT7 (ts bl : Option Nat) (ib tb : Option Bool)
    (turns : Option (List TurnDescriptor)) : List Nat :=
  encOptField fTimestamp encUint ts ++ encRT8 bl ib tb turns

/-- Optional tail of a `response` body from the `content` field on. -/
def encRT6 (ct : Option (List Nat)) (ts bl : Option Nat) (ib tb : Option Bool)
    (turns : Option (List TurnDescriptor)) : List Nat :=
  encOptField fContent encBin ct ++ encRT7 ts bl ib tb turns

/-- Optional tail of a `response` body from the `turn_id` field on. -/
def encRT5 (tid ct : Option (List Nat)) (ts bl : Option Nat) (ib tb : Option Bool)
    (turns : Option (List TurnDescriptor)) : List Nat :=
  encOptField fTurnId encStr tid ++ encRT6 ct ts bl ib tb turns

/-- Optional tail of a `response` body from the `sessions` field on. -/
def encRT4 (ss : Option (List SessionDescriptor)) (tid ct : Option (List Nat))
    (ts bl : Option Nat) (ib tb : Option Bool)
    (turns : Option (List TurnDescriptor)) : List Nat :=
  encOptField fSessions (encVec encSessionDescriptor) ss ++ encRT5 tid ct ts bl ib tb turns

/-- Optional tail of a `response` body from the `size` field on. -/
def encRT3 (sz : Option Nat) (ss : Option (List SessionDescriptor))
    (tid ct : Option (List Nat)) (ts bl : Option Nat) (ib tb : Option Bool)
    (turns : Option (List TurnDescriptor)) : List Nat :=
  encOptField fSize encUint sz ++ encRT4 ss tid ct ts bl ib tb turns

/-- Optional tail of a `response` body from the `error` field on. -/
def encRT2 (er : Option (List Nat)) (sz : Option Nat)
    (ss : Option (List SessionDescriptor)) (tid ct : Option (List Nat))
    (ts bl : Option Nat) (ib tb : Option Bool)
    (turns : Option (List TurnDescriptor)) : List Nat :=
  encOptField fError encStr er ++ encRT3 sz ss tid ct ts bl ib tb turns

/-- Number of map entries of a `response` (the `type` tag, `id`,
`status`, and the present optional fields). -/
def responseCount (er : Option (List Nat)) (sz : Option Nat)
    (ss : Option (List SessionDescriptor)) (tid ct : Option (List Nat))
    (ts bl : Option Nat) (ib tb : Option Bool)
    (turns : Option (List TurnDescriptor)) : Nat :=
  3 + optCount er + optCount sz + optCount ss + optCount tid + optCount ct +
    optCount ts + optCount bl + optCount ib + optCount tb + optCount turns

/-- Serialize a message (`rmp_serde::to_vec_named` layout). -/
def encMessage : Message → List Nat
  | .hello id version role =>
    encMapHeader 4 ++ encStr fType ++ encStr tagHello ++
    encStr fId ++ encUint id ++ encStr fVersion ++ encUint version ++
    encStr fRole ++ encRole role
  | .helloAck id status error =>
    encMapHeader (3 + optCount error) ++ encStr fType ++ encStr tagHelloAck ++
    encStr fId ++ encUint id ++ encStr fStatus ++ encStatus status ++
    encOptField fError encStr error
  | .register id session pid pattern0 =>
    encMapHeader 5 ++ encStr fType ++ encStr tagRegister ++
    encStr fId ++ encUint id ++ encStr fSession ++ encStr session ++
    encStr fPid ++ encUint pid ++ encStr fPattern ++ encStr pattern0
  | .deregister id session =>
    encMapHeader 3 ++ encStr fType ++ encStr tagDeregister ++
    encStr fId ++ encUint id ++ encStr fSession ++ encStr session
  | .turnCompleted id session content interrupted timestamp =>
    encMapHeader 6 ++ encStr fType ++ encStr tagTurnCompleted ++
    encStr fId ++ encUint id ++ encStr fSession ++ encStr session ++
    encStr fContent ++ encBin content ++ encStr fInterrupted ++ encBool interrupted ++
    encStr fTimestamp ++ encUint timestamp
  | .capture id session =>
    encMapHeader 3 ++ encStr fType ++ encStr tagCapture ++
    encStr fId ++ encUint id ++ encStr fSession ++ encStr session
  | .paste id session =>
    encMapHeader 3 ++ encStr fType ++ encStr tagPaste ++
    encStr fId ++ encUint id ++ encStr fSession ++ encStr session
  | .inject id content =>
    encMapHeader 3 ++ encStr fType ++ encStr tagInject ++
    encStr fId ++ encUint id ++ encStr fContent ++ encBin content
  | .listSessions id =>
    encMapHeader 2 ++ encStr fType ++ encStr tagListSessions ++
    encStr fId ++ encUint id
  | .getTurn id turn_id =>
    encMapHeader 3 ++ encStr fType ++ encStr tagGetTurn ++
    encStr fId ++ encUint id ++ encStr fTurnId ++ encStr turn_id
  | .listTurns id session limit =>
    encMapHeader 4 ++ encStr fType ++ encStr tagListTurns ++
    encStr fId ++ encUint id ++ encStr fSession ++ encStr session ++
    encStr fLimit ++ encNilOrUint limit
  | .captureById id turn_id =>
    encMapHeader 3 ++ encStr fType ++ encStr tagCaptureById ++
    encStr fId ++ encUint id ++ encStr fTurnId ++ encStr turn_id
  | .response id status error size sessions turn_id content timestamp byte_length
      interrupted truncated turns =>
    encMapHeader (responseCount error size sessions turn_id content timestamp
      byte_length interrupted truncated turns) ++
    encStr fType ++ encStr tagResponse ++
    encStr fId ++ encUint id ++ encStr fStatus ++ encStatus status ++
    encRT2 error size sessions turn_id content timestamp byte_length interrupted
      truncated turns

/-- Parse the body of a `hello`. -/
def decHelloBody (input : List Nat) : Option (Message × List Nat) :=
  match decField fId decUint input with
  | none => none
  | some (id, r1) =>
    match decField fVersion decUint r1 with
    | none => none
    | some (version, r2) =>
      match decField fRole decRole r2 with
      | none => none
      | some (role, r3) => some (.hello id version role, r3)

/-- Parse the body of a `hello_ack`. -/
def decHelloAckBody (input : List Nat) : Option (Message × List Nat) :=
  match decField fId decUint input with
  | none => none
  | some (id, r1) =>
    match decField fStatus decStatus r1 with
    | none => none
    | some (status, r2) =>
      match decOptField fError decStr r2 with
      | none => none
      | some (error, r3) => some (.helloAck id status error, r3)

/-- Parse the body of a `register`. -/
def decRegisterBody (input : List Nat) : Option (Message × List Nat) :=
  match decField fId decUint input with
  | none => none
  | some (id, r1) =>
    match decField fSession decStr r1 with
    | none => none
    | some (session, r2) =>
      match decField fPid decUint r2 with
      | none => none
      | some (pid, r3) =>
        match decField fPattern decStr r3 with
        | none => none
        | some (pattern0, r4) => some (.register id session pid pattern0, r4)

/-- Parse the body of a `deregister`, `capture` or `paste` (an id and a
session), building the message with the given constructor. -/
def decIdSessionBody (mk : Nat → List Nat → Message) (input : List Nat) :
    Option (Message × List Nat) :=
  match decField fId decUint input with
  | none => none
  | some (id, r1) =>
    match decField fSession decStr r1 with
    | none => none
    | some (session, r2) => some (mk id session, r2)

/-- Parse the body of a `turn_completed`. -/
def decTurnCompletedBody (input : List Nat) : Option (Message × List Nat) :=
  match decField fId decUint input with
  | none => none
  | some (id, r1) =>
    match decField fSession decStr r1 with
    | none => none
    | some (session, r2) =>
      match decField fContent decBin r2 with
      | none => none
      | some (content, r3) =>
        match decField fInterrupted decBool r3 with
        | none => none
        | some (interrupted, r4) =>
          match decField fTimestamp decUint r4 with
          | none => none
          | some (timestamp, r5) =>
            some (.turnCompleted id session content interrupted timestamp, r5)

/-- Parse the body of an `inject`. -/
def decInjectBody (input : List Nat) : Option (Message × List Nat) :=
  match decField fId decUint input with
  | none => none
  | some (id, r1) =>
    match decField fContent decBin r1 with
    | none => none
    | some (content, r2) => some (.inject id content, r2)

/-- Parse the body of a `list_sessions`. -/
def decListSessionsBody (input : List Nat) : Option (Message × List Nat) :=
  match decField fId decUint input with
  | none => none
  | some (id, r1) => some (.listSessions id, r1)

/-- Parse the body of a `get_turn` or `capture_by_id`. -/
def decIdTurnIdBody (mk : Nat → List Nat → Message) (input : List Nat) :
    Option (Message × List Nat) :=
  match decField fId decUint input with
  | none => none
  | some (id, r1) =>
    match decField fTurnId decStr r1 with
    | none => none
    | some (turn_id, r2) => some (mk id turn_id, r2)

/-- Parse the body of a `list_turns`. -/
def decListTurnsBody (input : List Nat) : Option (Message × List Nat) :=
  match decField fId decUint input with
  | none => none
  | some (id, r1) =>
    match decField fSession decStr r1 with
    | none => none
    | some (session, r2) =>
      match decField fLimit decNilOrUint r2 with
      | none => none
      | some (limit, r3) => some (.listTurns id session limit, r3)

/-- Parse the body of a `response`. -/
def decResponseBody (input : List Nat) : Option (Message × List Nat) :=
  match decField fId decUint input with
  | none => none
  | some (id, r1) =>
    match decField fStatus decStatus r1 with
    | none => none
    | some (status, r2) =>
      match decOptField fError decStr r2 with
      | none => none
      | some (error, r3) =>
        match decOptField fSize decUint r3 with
        | none => none
        | some (size, r4) =>
          match decOptField fSessions (decVec decSessionDescriptor) r4 with
          | none => none
          | some (sessions, r5) =>
            match decOptField fTurnId decStr r5 with
            | none => none
            | some (turn_id, r6) =>
              match decOptField fContent decBin r6 with
              | none => none
              | some (content, r7) =>
                match decOptField fTimestamp decUint r7 with
                | none => none
                | some (timestamp, r8) =>
                  match decOptField fByteLength decUint r8 with
                  | none => none
                  | some (byte_length, r9) =>
                    match decOptField fInterrupted decBool r9 with
                    | none => none
                    | some (interrupted, r10) =>
                      match decOptField fTruncated decBool r10 with
                      | none => none
                      | some (truncated, r11) =>
                        match decOptField fTurns (decVec decTurnDescriptor) r11 with
                        | none => none
                        | some (turns, r12) =>
                          some (.response id status error size sessions turn_id
                            content timestamp byte_length interrupted truncated
                            turns, r12)

/-- Deserialize a message: read the map header, the `type` tag, and
dispatch on the tag to the per-variant body parser. -/
def decMessage (input : List Nat) : Option (Message × List Nat) :=
  match decMapHeader input with
  | none => none
  | some (_, r0) =>
    match decField fType decStr r0 with
    | none => none
    | some (tag, r1) =>
      if tag = tagHello then decHelloBody r1
      else if tag = tagHelloAck then decHelloAckBody r1
      else if tag = tagRegister then decRegisterBody r1
      else if tag = tagDeregister then decIdSessionBody Message.deregister r1
      else if tag = tagTurnCompleted then decTurnCompletedBody r1
      else if tag = tagCapture then decIdSessionBody Message.capture r1
      else if tag = tagPaste then decIdSessionBody Message.paste r1
      else if tag = tagInject then decInjectBody r1
      else if tag = tagListSessions then decListSessionsBody r1
      else if tag = tagGetTurn then decIdTurnIdBody Message.getTurn r1
      else if tag = tagListTurns then decListTurnsBody r1
      else if tag = tagCaptureById then decIdTurnIdBody Message.captureById r1
      else if tag = tagResponse then decResponseBody r1
      else none

/-! ## Validity of messages as Rust values, and field-level lemmas -/

/-- Predicate on the payload of an optional field. -/
def OptWF {α : Type} (P : α → Prop) : Option α → Prop
  | none => True
  | some x => P x

/-- A byte string representable on the wire (`u32` length). -/
def StrWF (s : List Nat) : Prop := s.length < 2 ^ 32

/-- A list representable on the wire, all elements valid. -/
def ListWF {α : Type} (P : α → Prop) (l : List α) : Prop :=
  l.length < 2 ^ 32 ∧ ∀ x ∈ l, P x

/-- Validity of a message as a Rust `Message` value: every `u32` field
below `2^32`, every `u64` field below `2^64`, every string, byte
vector and list of wire-representable length. -/
def MsgWF : Message → Prop
  | .hello id version _ => id < 2 ^ 32 ∧ version < 2 ^ 32
  | .helloAck id _ error => id < 2 ^ 32 ∧ OptWF StrWF error
  | .register id session pid pattern0 =>
    id < 2 ^ 32 ∧ StrWF session ∧ pid < 2 ^ 32 ∧ StrWF pattern0
  | .deregister id session => id < 2 ^ 32 ∧ StrWF session
  | .turnCompleted id session content _ timestamp =>
    id < 2 ^ 32 ∧ StrWF session ∧ StrWF content ∧ timestamp < 2 ^ 64
  | .capture id session => id < 2 ^ 32 ∧ StrWF session
  | .paste id session => id < 2 ^ 32 ∧ StrWF session
  | .inject id content => id < 2 ^ 32 ∧ StrWF content
  | .listSessions id => id < 2 ^ 32
  | .getTurn id turn_id => id < 2 ^ 32 ∧ StrWF turn_id
  | .listTurns id session limit =>
    id < 2 ^ 32 ∧ StrWF session ∧ OptWF (fun n => n < 2 ^ 32) limit
  | .captureById id turn_id => id < 2 ^ 32 ∧ StrWF turn_id
  | .response id _ error size sessions turn_id content timestamp byte_length
      _ _ turns =>
    id < 2 ^ 32 ∧ OptWF StrWF error ∧ OptWF (fun n => n < 2 ^ 32) size ∧
    OptWF (ListWF SessionDescriptorWF) sessions ∧ OptWF StrWF turn_id ∧
    OptWF StrWF content ∧ OptWF (fun n => n < 2 ^ 64) timestamp ∧
    OptWF (fun n => n < 2 ^ 32) byte_length ∧ OptWF (ListWF TurnDescriptorWF) turns

theorem decField_uint (name : List Nat) (hname : name.length < 2 ^ 32)
    (n : Nat) (hn : n < 2 ^ 64) (tail : List Nat) :
    decField name decUint (encStr name ++ (encUint n ++ tail)) = some (n, tail) :=
  decField_of_enc name hname decUint _ n tail (decUint_enc n hn tail)

theorem decField_uint_nil (name : List Nat) (hname : name.length < 2 ^ 32)
    (n : Nat) (hn : n < 2 ^ 64) :
    decField name decUint (encStr name ++ encUint n) = some (n, []) := by
  have h := decField_uint name hname n hn []
  rwa [List.append_nil] at h

theorem decField_str (name : List Nat) (hname : name.length < 2 ^ 32)
    (s : List Nat) (hs : s.length < 2 ^ 32) (tail : List Nat) :
    decField name decStr (encStr name ++ (encStr s ++ tail)) = some (s, tail) :=
  decField_of_enc name hname decStr _ s tail (decStr_enc s hs tail)

theorem decField_str_nil (name : List Nat) (hname : name.length < 2 ^ 32)
    (s : List Nat) (hs : s.length < 2 ^ 32) :
    decField name decStr (encStr name ++ encStr s) = some (s, []) := by
  have h := decField_str name hname s hs []
  rwa [List.append_nil] at h

theorem decField_bin (name : List Nat) (hname : name.length < 2 ^ 32)
    (s : List Nat) (hs : s.length < 2 ^ 32) (tail : List Nat) :
    decField name decBin (encStr name ++ (encBin s ++ tail)) = some (s, tail) :=
  decField_of_enc name hname decBin _ s tail (decBin_enc s hs tail)

theorem decField_bin_nil (name : List Nat) (hname : name.length < 2 ^ 32)
    (s : List Nat) (hs : s.length < 2 ^ 32) :
    decField name decBin (encStr name ++ encBin s) = some (s, []) := by
  have h := decField_bin name hname s hs []
  rwa [List.append_nil] at h

theorem decField_bool (name : List Nat) (hname : name.length < 2 ^ 32)
    (b : Bool) (tail : List Nat) :
    decField name decBool (encStr name ++ (encBool b ++ tail)) = some (b, tail) :=
  decField_of_enc name hname decBool _ b tail (decBool_enc b tail)

theorem decField_role (name : List Nat) (hname : name.length < 2 ^ 32)
    (role : Role) (tail : List Nat) :
    decField name decRole (encStr name ++ (encRole role ++ tail)) = some (role, tail) :=
  decField_of_enc name hname decRole _ role tail (decRole_enc role tail)

theorem decField_role_nil (name : List Nat) (hname : name.length < 2 ^ 32)
    (role : Role) :
    decField name decRole (encStr name ++ encRole role) = some (role, []) := by
  have h := decField_role name hname role []
  rwa [List.append_nil] at h

theorem decField_status (name : List Nat) (hname : name.length < 2 ^ 32)
    (st : Status) (tail : List Nat) :
    decField name decStatus (encStr name ++ (encStatus st ++ tail)) = some (st, tail) :=
  decField_of_enc name hname decStatus _ st tail (decStatus_enc st tail)

theorem decField_nilOrUint (name : List Nat) (hname : name.length < 2 ^ 32)
    (o : Option Nat) (ho : ∀ n, o = some n → n < 2 ^ 64) (tail : List Nat) :
    decField name decNilOrUint (encStr name ++ (encNilOrUint o ++ tail)) =
      some (o, tail) :=
  decField_of_enc name hname decNilOrUint _ o tail (decNilOrUint_enc o ho tail)

theorem decField_nilOrUint_nil (name : List Nat) (hname : name.length < 2 ^ 32)
    (o : Option Nat) (ho : ∀ n, o = some n → n < 2 ^ 64) :
    decField name decNilOrUint (encStr name ++ encNilOrUint o) = some (o, []) := by
  have h := decField_nilOrUint name hname o ho []
  rwa [List.append_nil] at h

/-! ## Roundtrip of the optional `response` tail -/

theorem kfRT11 (name : List Nat) (h : fTurns ≠ name)
    (turns : Option (List TurnDescriptor)) : KeyFree name (encRT11 turns) := by
  cases turns with
  | none => exact keyFree_nil name
  | some v => exact keyFree_encStr name fTurns (by decide) h _

theorem kfRT10 (name : List Nat) (h1 : fTruncated ≠ name) (h2 : fTurns ≠ name)
    (tb : Option Bool) (turns : Option (List TurnDescriptor)) :
    KeyFree name (encRT10 tb turns) := by
  cases tb with
  | none => exact kfRT11 name h2 turns
  | some v =>
    unfold encRT10 encOptField
    rw [List.append_assoc]
    exact keyFree_encStr name fTruncated (by decide) h1 _

theorem kfRT9 (name : List Nat) (h1 : fInterrupted ≠ name) (h2 : fTruncated ≠ name)
    (h3 : fTurns ≠ name) (ib tb : Option Bool)
    (turns : Option (List TurnDescriptor)) : KeyFree name (encRT9 ib tb turns) := by
  cases ib with
  | none => exact kfRT10 name h2 h3 tb turns
  | some v =>
    unfold encRT9 encOptField
    rw [List.append_assoc]
    exact keyFree_encStr name fInterrupted (by decide) h1 _

theorem kfRT8 (name : List Nat) (h1 : fByteLength ≠ name) (h2 : fInterrupted ≠ name)
    (h3 : fTruncated ≠ name) (h4 : fTurns ≠ name) (bl : Option Nat)
    (ib tb : Option Bool) (turns : Option (List TurnDescriptor)) :
    KeyFree name (encRT8 bl ib tb turns) := by
  cases bl with
  | none => exact kfRT9 name h2 h3 h4 ib tb turns
  | some v =>
    unfold encRT8 encOptField
    rw [List.append_assoc]
    exact keyFree_encStr name fByteLength (by decide) h1 _

theorem kfRT7 (name : List Nat) (h1 : fTimestamp ≠ name) (h2 : fByteLength ≠ name)
    (h3 : fInterrupted ≠ name) (h4 : fTruncated ≠ name) (h5 : fTurns ≠ name)
    (ts bl : Option Nat) (ib tb : Option Bool)
    (turns : Option (List TurnDescriptor)) : KeyFree name (encRT7 ts bl ib tb turns) := by
  cases ts with
  | none => exact kfRT8 name h2 h3 h4 h5 bl ib tb turns
  | some v =>
    unfold encRT7 encOptField
    rw [List.append_assoc]
    exact keyFree_encStr name fTimestamp (by decide) h1 _

theorem kfRT6 (name : List Nat) (h1 : fContent ≠ name) (h2 : fTimestamp ≠ name)
    (h3 : fByteLength ≠ name) (h4 : fInterrupted ≠ name) (h5 : fTruncated ≠ name)
    (h6 : fTurns ≠ name) (ct : Option (List Nat)) (ts bl : Option Nat)
    (ib tb : Option Bool) (turns : Option (List TurnDescriptor)) :
    KeyFree name (encRT6 ct ts bl ib tb turns) := by
  cases ct with
  | none => exact kfRT7 name h2 h3 h4 h5 h6 ts bl ib tb turns
  | some v =>
    unfold encRT6 encOptField
    rw [List.append_assoc]
    exact keyFree_encStr name fContent (by decide) h1 _

theorem kfRT5 (name : List Nat) (h1 : fTurnId ≠ name) (h2 : fContent ≠ name)
    (h3 : fTimestamp ≠ name) (h4 : fByteLength ≠ name) (h5 : fInterrupted ≠ name)
    (h6 : fTruncated ≠ name) (h7 : fTurns ≠ name) (tid ct : Option (List Nat))
    (ts bl : Option Nat) (ib tb : Option Bool)
    (turns : Option (List TurnDescriptor)) :
    KeyFree name (encRT5 tid ct ts bl ib tb turns) := by
  cases tid with
  | none => exact kfRT6 name h2 h3 h4 h5 h6 h7 ct ts bl ib tb turns
  | some v =>
    unfold encRT5 encOptField
    rw [List.append_assoc]
    exact keyFree_encStr name fTurnId (by decide) h1 _

theorem kfRT4 (name : List Nat) (h1 : fSessions ≠ name) (h2 : fTurnId ≠ name)
    (h3 : fContent ≠ name) (h4 : fTimestamp ≠ name) (h5 : fByteLength ≠ name)
    (h6 : fInterrupted ≠ name) (h7 : fTruncated ≠ name) (h8 : fTurns ≠ name)
    (ss : Option (List SessionDescriptor)) (tid ct : Option (List Nat))
    (ts bl : Option Nat) (ib tb : Option Bool)
    (turns : Option (List TurnDescriptor)) :
    KeyFree name (encRT4 ss tid ct ts bl ib tb turns) := by
  cases ss with
  | none => exact kfRT5 name h2 h3 h4 h5 h6 h7 h8 tid ct ts bl ib tb turns
  | some v =>
    unfold encRT4 encOptField
    rw [List.append_assoc]
    exact keyFree_encStr name fSessions (by decide) h1 _

theorem kfRT3 (name : List Nat) (h1 : fSize ≠ name) (h2 : fSessions ≠ name)
    (h3 : fTurnId ≠ name) (h4 : fContent ≠ name) (h5 : fTimestamp ≠ name)
    (h6 : fByteLength ≠ name) (h7 : fInterrupted ≠ name) (h8 : fTruncated ≠ name)
    (h9 : fTurns ≠ name) (sz : Option Nat) (ss : Option (List SessionDescriptor))
    (tid ct : Option (List Nat)) (ts bl : Option Nat) (ib tb : Option Bool)
    (turns : Option (List TurnDescriptor)) :
    KeyFree name (encRT3 sz ss tid ct ts bl ib tb turns) := by
  cases sz with
  | none => exact kfRT4 name h2 h3 h4 h5 h6 h7 h8 h9 ss tid ct ts bl ib tb turns
  | some v =>
    unfold encRT3 encOptField
    rw [List.append_assoc]
    exact keyFree_encStr name fSize (by decide) h1 _

theorem decRT11_enc (turns : Option (List TurnDescriptor))
    (hwf : OptWF (ListWF TurnDescriptorWF) turns) :
    decOptField fTurns (decVec decTurnDescriptor) (encRT11 turns) =
      some (turns, []) := by
  cases turns with
  | none => exact decOptField_none fTurns _ [] (keyFree_nil fTurns)
  | some v =>
    have hv : ListWF TurnDescriptorWF v := hwf
    have hdec : decVec decTurnDescriptor (encVec encTurnDescriptor v) = some (v, []) := by
      have h := decVec_enc decTurnDescriptor encTurnDescriptor v [] hv.1
        (fun x hx r => decTurnDescriptor_enc x (hv.2 x hx) r)
      rwa [List.append_nil] at h
    exact decOptField_some fTurns (by decide) _ (encVec encTurnDescriptor) v _ _ hdec

theorem decRT10_enc (tb : Option Bool) (turns : Option (List TurnDescriptor)) :
    decOptField fTruncated decBool (encRT10 tb turns) =
      some (tb, encRT11 turns) := by
  cases tb with
  | none => exact decOptField_none fTruncated _ _ (kfRT11 fTruncated (by decide) turns)
  | some v =>
    have h2 := decOptField_some fTruncated (by decide) decBool encBool v _ _
      (decBool_enc v (encRT11 turns))
    unfold encRT10 encOptField
    rw [List.append_assoc]
    exact h2

theorem decRT9_enc (ib tb : Option Bool) (turns : Option (List TurnDescriptor)) :
    decOptField fInterrupted decBool (encRT9 ib tb turns) =
      some (ib, encRT10 tb turns) := by
  cases ib with
  | none =>
    exact decOptField_none fInterrupted _ _
      (kfRT10 fInterrupted (by decide) (by decide) tb turns)
  | some v =>
    have h2 := decOptField_some fInterrupted (by decide) decBool encBool v _ _
      (decBool_enc v (encRT10 tb turns))
    unfold encRT9 encOptField
    rw [List.append_assoc]
    exact h2

theorem decRT8_enc (bl : Option Nat) (ib tb : Option Bool)
    (turns : Option (List TurnDescriptor)) (hbl : OptWF (fun n => n < 2 ^ 32) bl) :
    decOptField fByteLength decUint (encRT8 bl ib tb turns) =
      some (bl, encRT9 ib tb turns) := by
  cases bl with
  | none =>
    exact decOptField_none fByteLength _ _
      (kfRT9 fByteLength (by decide) (by decide) (by decide) ib tb turns)
  | some v =>
    have hv : v < 2 ^ 32 := hbl
    have h2 := decOptField_some fByteLength (by decide) decUint encUint v _ _
      (decUint_enc v (by omega) (encRT9 ib tb turns))
    unfold encRT8 encOptField
    rw [List.append_assoc]
    exact h2

theorem decRT7_enc (ts bl : Option Nat) (ib tb : Option Bool)
    (turns : Option (List TurnDescriptor)) (hts : OptWF (fun n => n < 2 ^ 64) ts) :
    decOptField fTimestamp decUint (encRT7 ts bl ib tb turns) =
      some (ts, encRT8 bl ib tb turns) := by
  cases ts with
  | none =>
    exact decOptField_none fTimestamp _ _
      (kfRT8 fTimestamp (by decide) (by decide) (by decide) (by decide) bl ib tb turns)
  | some v =>
    have hv : v < 2 ^ 64 := hts
    have h2 := decOptField_some fTimestamp (by decide) decUint encUint v _ _
      (decUint_enc v hv (encRT8 bl ib tb turns))
    unfold encRT7 encOptField
    rw [List.append_assoc]
    exact h2

theorem decRT6_enc (ct : Option (List Nat)) (ts bl : Option Nat)
    (ib tb : Option Bool) (turns : Option (List TurnDescriptor))
    (hct : OptWF StrWF ct) :
    decOptField fContent decBin (encRT6 ct ts bl ib tb turns) =
      some (ct, encRT7 ts bl ib tb turns) := by
  cases ct with
  | none =>
    exact decOptField_none fContent _ _
      (kfRT7 fContent (by decide) (by decide) (by decide) (by decide) (by decide)
        ts bl ib tb turns)
  | some v =>
    have hv : StrWF v := hct
    have h2 := decOptField_some fContent (by decide) decBin encBin v _ _
      (decBin_enc v hv (encRT7 ts bl ib tb turns))
    unfold encRT6 encOptField
    rw [List.append_assoc]
    exact h2

theorem decRT5_enc (tid ct : Option (List Nat)) (ts bl : Option Nat)
    (ib tb : Option Bool) (turns : Option (List TurnDescriptor))
    (htid : OptWF StrWF tid) :
    decOptField fTurnId decStr (encRT5 tid ct ts bl ib tb turns) =
      some (tid, encRT6 ct ts bl ib tb turns) := by
  cases tid with
  | none =>
    exact decOptField_none fTurnId _ _
      (kfRT6 fTurnId (by decide) (by decide) (by decide) (by decide) (by decide)
        (by decide) ct ts bl ib tb turns)
  | some v =>
    have hv : StrWF v := htid
    have h2 := decOptField_some fTurnId (by decide) decStr encStr v _ _
      (decStr_enc v hv (encRT6 ct ts bl ib tb turns))
    unfold encRT5 encOptField
    rw [List.append_assoc]
    exact h2

theorem decRT4_enc (ss : Option (List SessionDescriptor)) (tid ct : Option (List Nat))
    (ts bl : Option Nat) (ib tb : Option Bool)
    (turns : Option (List TurnDescriptor))
    (hss : OptWF (ListWF SessionDescriptorWF) ss) :
    decOptField fSessions (decVec decSessionDescriptor)
        (encRT4 ss tid ct ts bl ib tb turns) =
      some (ss, encRT5 tid ct ts bl ib tb turns) := by
  cases ss with
  | none =>
    exact decOptField_none fSessions _ _
      (kfRT5 fSessions (by decide) (by decide) (by decide) (by decide) (by decide)
        (by decide) (by decide) tid ct ts bl ib tb turns)
  | some v =>
    have hv : ListWF SessionDescriptorWF v := hss
    have hdec := decVec_enc decSessionDescriptor encSessionDescriptor v
      (encRT5 tid ct ts bl ib tb turns) hv.1
      (fun x hx r => decSessionDescriptor_enc x (hv.2 x hx) r)
    have h2 := decOptField_some fSessions (by decide) _
      (encVec encSessionDescriptor) v _ _ hdec
    unfold encRT4 encOptField
    rw [List.append_assoc]
    exact h2

theorem decRT3_enc (sz : Option Nat) (ss : Option (List SessionDescriptor))
    (tid ct : Option (List Nat)) (ts bl : Option Nat) (ib tb : Option Bool)
    (turns : Option (List TurnDescriptor)) (hsz : OptWF (fun n => n < 2 ^ 32) sz) :
    decOptField fSize decUint (encRT3 sz ss tid ct ts bl ib tb turns) =
      some (sz, encRT4 ss tid ct ts bl ib tb turns) := by
  cases sz with
  | none =>
    exact decOptField_none fSize _ _
      (kfRT4 fSize (by decide) (by decide) (by decide) (by decide) (by decide)
        (by decide) (by decide) (by decide) ss tid ct ts bl ib tb turns)
  | some v =>
    have hv : v < 2 ^ 32 := hsz
    have h2 := decOptField_some fSize (by decide) decUint encUint v _ _
      (decUint_enc v (by omega) (encRT4 ss tid ct ts bl ib tb turns))
    unfold encRT3 encOptField
    rw [List.append_assoc]
    exact h2

theorem decRT2_enc (er : Option (List Nat)) (sz : Option Nat)
    (ss : Option (List SessionDescriptor)) (tid ct : Option (List Nat))
    (ts bl : Option Nat) (ib tb : Option Bool)
    (turns : Option (List TurnDescriptor)) (her : OptWF StrWF er) :
    decOptField fError decStr (encRT2 er sz ss tid ct ts bl ib tb turns) =
      some (er, encRT3 sz ss tid ct ts bl ib tb turns) := by
  cases er with
  | none =>
    exact decOptField_none fError _ _
      (kfRT3 fError (by decide) (by decide) (by decide) (by decide) (by decide)
        (by decide) (by decide) (by decide) (by decide) sz ss tid ct ts bl ib tb turns)
  | some v =>
    have hv : StrWF v := her
    have h2 := decOptField_some fError (by decide) decStr encStr v _ _
      (decStr_enc v hv (encRT3 sz ss tid ct ts bl ib tb turns))
    unfold encRT2 encOptField
    rw [List.append_assoc]
    exact h2

/-! ## Body roundtrips, variant by variant -/

theorem optCount_le_one {α : Type} (o : Option α) : optCount o ≤ 1 := by
  cases o <;> simp [optCount]

theorem decHelloBody_enc (id version : Nat) (role : Role)
    (h1 : id < 2 ^ 32) (h2 : version < 2 ^ 32) :
    decHelloBody (encStr fId ++ (encUint id ++ (encStr fVersion ++
      (encUint version ++ (encStr fRole ++ encRole role))))) =
      some (.hello id version role, []) := by
  simp only [decHelloBody,
    decField_uint fId (by decide) id (by omega),
    decField_uint fVersion (by decide) version (by omega),
    decField_role_nil fRole (by decide) role]

theorem decHelloAckBody_enc (id : Nat) (st : Status) (er : Option (List Nat))
    (h1 : id < 2 ^ 32) (her : OptWF StrWF er) :
    decHelloAckBody (encStr fId ++ (encUint id ++ (encStr fStatus ++
      (encStatus st ++ encOptField fError encStr er)))) =
      some (.helloAck id st er, []) := by
  have hopt : decOptField fError decStr (encOptField fError encStr er) =
      some (er, []) := by
    cases er with
    | none => exact decOptField_none fError _ [] (keyFree_nil fError)
    | some v =>
      have hv : StrWF v := her
      have hdec : decStr (encStr v) = some (v, []) := by
        have h := decStr_enc v hv []
        rwa [List.append_nil] at h
      exact decOptField_some fError (by decide) decStr encStr v _ _ hdec
  simp only [decHelloAckBody,
    decField_uint fId (by decide) id (by omega),
    decField_status fStatus (by decide) st, hopt]

theorem decRegisterBody_enc (id pid : Nat) (session pattern0 : List Nat)
    (h1 : id < 2 ^ 32) (h2 : StrWF session) (h3 : pid < 2 ^ 32)
    (h4 : StrWF pattern0) :
    decRegisterBody (encStr fId ++ (encUint id ++ (encStr fSession ++
      (encStr session ++ (encStr fPid ++ (encUint pid ++ (encStr fPattern ++
        encStr pattern0))))))) = some (.register id session pid pattern0, []) := by
  simp only [decRegisterBody,
    decField_uint fId (by decide) id (by omega),
    decField_str fSession (by decide) session h2,
    decField_uint fPid (by decide) pid (by omega),
    decField_str_nil fPattern (by decide) pattern0 h4]

theorem decIdSessionBody_enc (mk : Nat → List Nat → Message) (id : Nat)
    (session : List Nat) (h1 : id < 2 ^ 32) (h2 : StrWF session) :
    decIdSessionBody mk (encStr fId ++ (encUint id ++ (encStr fSession ++
      encStr session))) = some (mk id session, []) := by
  simp only [decIdSessionBody,
    decField_uint fId (by decide) id (by omega),
    decField_str_nil fSession (by decide) session h2]

theorem decTurnCompletedBody_enc (id timestamp : Nat)
    (session content : List Nat) (interrupted : Bool)
    (h1 : id < 2 ^ 32) (h2 : StrWF session) (h3 : StrWF content)
    (h4 : timestamp < 2 ^ 64) :
    decTurnCompletedBody (encStr fId ++ (encUint id ++ (encStr fSession ++
      (encStr session ++ (encStr fContent ++ (encBin content ++
        (encStr fInterrupted ++ (encBool interrupted ++ (encStr fTimestamp ++
          encUint timestamp))))))))) =
      some (.turnCompleted id session content interrupted timestamp, []) := by
  simp only [decTurnCompletedBody,
    decField_uint fId (by decide) id (by omega),
    decField_str fSession (by decide) session h2,
    decField_bin fContent (by decide) content h3,
    decField_bool fInterrupted (by decide) interrupted,
    decField_uint_nil fTimestamp (by decide) timestamp h4]

theorem decInjectBody_enc (id : Nat) (content : List Nat)
    (h1 : id < 2 ^ 32) (h2 : StrWF content) :
    decInjectBody (encStr fId ++ (encUint id ++ (encStr fContent ++
      encBin content))) = some (.inject id content, []) := by
  simp only [decInjectBody,
    decField_uint fId (by decide) id (by omega),
    decField_bin_nil fContent (by decide) content h2]

theorem decListSessionsBody_enc (id : Nat) (h1 : id < 2 ^ 32) :
    decListSessionsBody (encStr fId ++ encUint id) =
      some (.listSessions id, []) := by
  simp only [decListSessionsBody,
    decField_uint_nil fId (by decide) id (by omega)]

theorem decIdTurnIdBody_enc (mk : Nat → List Nat → Message) (id : Nat)
    (turn_id : List Nat) (h1 : id < 2 ^ 32) (h2 : StrWF turn_id) :
    decIdTurnIdBody mk (encStr fId ++ (encUint id ++ (encStr fTurnId ++
      encStr turn_id))) = some (mk id turn_id, []) := by
  simp only [decIdTurnIdBody,
    decField_uint fId (by decide) id (by omega),
    decField_str_nil fTurnId (by decide) turn_id h2]

theorem decListTurnsBody_enc (id : Nat) (session : List Nat)
    (limit : Option Nat) (h1 : id < 2 ^ 32) (h2 : StrWF session)
    (h3 : OptWF (fun n => n < 2 ^ 32) limit) :
    decListTurnsBody (encStr fId ++ (encUint id ++ (encStr fSession ++
      (encStr session ++ (encStr fLimit ++ encNilOrUint limit))))) =
      some (.listTurns id session limit, []) := by
  have ho : ∀ n, limit = some n → n < 2 ^ 64 := by
    intro n hn
    subst hn
    have hv : n < 2 ^ 32 := h3
    omega
  simp only [decListTurnsBody,
    decField_uint fId (by decide) id (by omega),
    decField_str fSession (by decide) session h2,
    decField_nilOrUint_nil fLimit (by decide) limit ho]

theorem decResponseBody_enc (id : Nat) (st : Status) (er : Option (List Nat))
    (sz : Option Nat) (ss : Option (List SessionDescriptor))
    (tid ct : Option (List Nat)) (ts bl : Option Nat) (ib tb : Option Bool)
    (turns : Option (List TurnDescriptor))
    (h1 : id < 2 ^ 32) (her : OptWF StrWF er)
    (hsz : OptWF (fun n => n < 2 ^ 32) sz)
    (hss : OptWF (ListWF SessionDescriptorWF) ss)
    (htid : OptWF StrWF tid) (hct : OptWF StrWF ct)
    (hts : OptWF (fun n => n < 2 ^ 64) ts)
    (hbl : OptWF (fun n => n < 2 ^ 32) bl)
    (hturns : OptWF (ListWF TurnDescriptorWF) turns) :
    decResponseBody (encStr fId ++ (encUint id ++ (encStr fStatus ++
      (encStatus st ++ encRT2 er sz ss tid ct ts bl ib tb turns)))) =
      some (.response id st er sz ss tid ct ts bl ib tb turns, []) := by
  simp only [decResponseBody,
    decField_uint fId (by decide) id (by omega),
    decField_status fStatus (by decide) st,
    decRT2_enc er sz ss tid ct ts bl ib tb turns her,
    decRT3_enc sz ss tid ct ts bl ib tb turns hsz,
    decRT4_enc ss tid ct ts bl ib tb turns hss,
    decRT5_enc tid ct ts bl ib tb turns htid,
    decRT6_enc ct ts bl ib tb turns hct,
    decRT7_enc ts bl ib tb turns hts,
    decRT8_enc bl ib tb turns hbl,
    decRT9_enc ib tb turns,
    decRT10_enc tb turns,
    decRT11_enc turns hturns]

/-- Full message roundtrip: decoding the named-map encoding of any
valid message returns exactly that message with no input left over. -/
theorem decMessage_enc (m : Message) (h : MsgWF m) :
    decMessage (encMessage m) = some (m, []) := by
  cases m with
  | hello id version role =>
    obtain ⟨h1, h2⟩ := h
    simp only [encMessage, decMessage, List.append_assoc,
      decMapHeader_enc 4 (by omega),
      decField_str fType (by decide) tagHello (by decide)]
    rw [if_pos trivial]
    exact decHelloBody_enc id version role h1 h2
  | helloAck id st er =>
    obtain ⟨h1, h2⟩ := h
    have hc : 3 + optCount er < 16 := by
      have := optCount_le_one er
      omega
    simp only [encMessage, decMessage, List.append_assoc,
      decMapHeader_enc (3 + optCount er) hc,
      decField_str fType (by decide) tagHelloAck (by decide)]
    rw [if_neg (by decide), if_pos trivial]
    exact decHelloAckBody_enc id st er h1 h2
  | register id session pid pattern0 =>
    obtain ⟨h1, h2, h3, h4⟩ := h
    simp only [encMessage, decMessage, List.append_assoc,
      decMapHeader_enc 5 (by omega),
      decField_str fType (by decide) tagRegister (by decide)]
    rw [if_neg (by decide), if_neg (by decide), if_pos trivial]
    exact decRegisterBody_enc id pid session pattern0 h1 h2 h3 h4
  | deregister id session =>
    obtain ⟨h1, h2⟩ := h
    simp only [encMessage, decMessage, List.append_assoc,
      decMapHeader_enc 3 (by omega),
      decField_str fType (by decide) tagDeregister (by decide)]
    rw [if_neg (by decide), if_neg (by decide), if_neg (by decide), if_pos trivial]
    exact decIdSessionBody_enc Message.deregister id session h1 h2
  | turnCompleted id session content interrupted timestamp =>
    obtain ⟨h1, h2, h3, h4⟩ := h
    simp only [encMessage, decMessage, List.append_assoc,
      decMapHeader_enc 6 (by omega),
      decField_str fType (by decide) tagTurnCompleted (by decide)]
    rw [if_neg (by decide), if_neg (by decide), if_neg (by decide),
      if_neg (by decide), if_pos trivial]
    exact decTurnCompletedBody_enc id timestamp session content interrupted h1 h2 h3 h4
  | capture id session =>
    obtain ⟨h1, h2⟩ := h
    simp only [encMessage, decMessage, List.append_assoc,
      decMapHeader_enc 3 (by omega),
      decField_str fType (by decide) tagCapture (by decide)]
    rw [if_neg (by decide), if_neg (by decide), if_neg (by decide),
      if_neg (by decide), if_neg (by decide), if_pos trivial]
    exact decIdSessionBody_enc Message.capture id session h1 h2
  | paste id session =>
    obtain ⟨h1, h2⟩ := h
    simp only [encMessage, decMessage, List.append_assoc,
      decMapHeader_enc 3 (by omega),
      decField_str fType (by decide) tagPaste (by decide)]
    rw [if_neg (by decide), if_neg (by decide), if_neg (by decide),
      if_neg (by decide), if_neg (by decide), if_neg (by decide), if_pos trivial]
    exact decIdSessionBody_enc Message.paste id session h1 h2
  | inject id content =>
    obtain ⟨h1, h2⟩ := h
    simp only [encMessage, decMessage, List.append_assoc,
      decMapHeader_enc 3 (by omega),
      decField_str fType (by decide) tagInject (by decide)]
    rw [if_neg (by decide), if_neg (by decide), if_neg (by decide),
      if_neg (by decide), if_neg (by decide), if_neg (by decide),
      if_neg (by decide), if_pos trivial]
    exact decInjectBody_enc id content h1 h2
  | listSessions id =>
    have h1 : id < 2 ^ 32 := h
    simp only [encMessage, decMessage, List.append_assoc,
      decMapHeader_enc 2 (by omega),
      decField_str fType (by decide) tagListSessions (by decide)]
    rw [if_neg (by decide), if_neg (by decide), if_neg (by decide),
      if_neg (by decide), if_neg (by decide), if_neg (by decide),
      if_neg (by decide), if_neg (by decide), if_pos trivial]
    exact decListSessionsBody_enc id h1
  | getTurn id turn_id =>
    obtain ⟨h1, h2⟩ := h
    simp only [encMessage, decMessage, List.append_assoc,
      decMapHeader_enc 3 (by omega),
      decField_str fType (by decide) tagGetTurn (by decide)]
    rw [if_neg (by decide), if_neg (by decide), if_neg (by decide),
      if_neg (by decide), if_neg (by decide), if_neg (by decide),
      if_neg (by decide), if_neg (by decide), if_neg (by decide), if_pos trivial]
    exact decIdTurnIdBody_enc Message.getTurn id turn_id h1 h2
  | listTurns id session limit =>
    obtain ⟨h1, h2, h3⟩ := h
    simp only [encMessage, decMessage, List.append_assoc,
      decMapHeader_enc 4 (by omega),
      decField_str fType (by decide) tagListTurns (by decide)]
    rw [if_neg (by decide), if_neg (by decide), if_neg (by decide),
      if_neg (by decide), if_neg (by decide), if_neg (by decide),
      if_neg (by decide), if_neg (by decide), if_neg (by decide),
      if_neg (by decide), if_pos trivial]
    exact decListTurnsBody_enc id session limit h1 h2 h3
  | captureById id turn_id =>
    obtain ⟨h1, h2⟩ := h
    simp only [encMessage, decMessage, List.append_assoc,
      decMapHeader_enc 3 (by omega),
      decField_str fType (by decide) tagCaptureById (by decide)]
    rw [if_neg (by decide), if_neg (by decide), if_neg (by decide),
      if_neg (by decide), if_neg (by decide), if_neg (by decide),
      if_neg (by decide), if_neg (by decide), if_neg (by decide),
      if_neg (by decide), if_neg (by decide), if_pos trivial]
    exact decIdTurnIdBody_enc Message.captureById id turn_id h1 h2
  | response id st er sz ss tid ct ts bl ib tb turns =>
    obtain ⟨h1, her, hsz, hss, htid, hct, hts, hbl, hturns⟩ := h
    have hc : responseCount er sz ss tid ct ts bl ib tb turns < 16 := by
      have c1 := optCount_le_one er
      have c2 := optCount_le_one sz
      have c3 := optCount_le_one ss
      have c4 := optCount_le_one tid
      have c5 := optCount_le_one ct
      have c6 := optCount_le_one ts
      have c7 := optCount_le_one bl
      have c8 := optCount_le_one ib
      have c9 := optCount_le_one tb
      have c10 := optCount_le_one turns
      unfold responseCount
      omega
    simp only [encMessage, decMessage, List.append_assoc,
      decMapHeader_enc (responseCount er sz ss tid ct ts bl ib tb turns) hc,
      decField_str fType (by decide) tagResponse (by decide)]
    rw [if_neg (by decide), if_neg (by decide), if_neg (by decide),
      if_neg (by decide), if_neg (by decide), if_neg (by decide),
      if_neg (by decide), if_neg (by decide), if_neg (by decide),
      if_neg (by decide), if_neg (by decide), if_neg (by decide), if_pos trivial]
    exact decResponseBody_enc id st er sz ss tid ct ts bl ib tb turns
      h1 her hsz hss htid hct hts hbl hturns

/-! ## Frame codec (`src/ipc/codec.rs`) -/

/-- `MAX_PAYLOAD_SIZE` (16 MiB). -/
def MAX_PAYLOAD_SIZE : Nat := 16777216

/-- Outcome of `LengthPrefixedCodec::decode` on a buffered input:
`needMore` models `Ok(None)` (partial header or payload), `errored`
models `Err` (oversized or malformed payload). -/
inductive FrameOutcome where
  | needMore
  | errored
  | message (m : Message) (rest : List Nat)
deriving DecidableEq

/-- `LengthPrefixedCodec::encode`: serialize, reject payloads above
16 MiB, and emit a big-endian `u32` length prefix followed by the
payload. -/
def frameEncode (m : Message) : Option (List Nat) :=
  let payload := encMessage m
  if MAX_PAYLOAD_SIZE < payload.length then none
  else some (be32 payload.length ++ payload)

/-- `LengthPrefixedCodec::decode`: read the 4-byte big-endian length
header (incomplete header → need more), reject lengths above 16 MiB,
wait for the full payload, then deserialize it. -/
def frameDecode (input : List Nat) : FrameOutcome :=
  match input with
  | a :: b :: c :: d :: rest =>
    let len := ((a * 256 + b) * 256 + c) * 256 + d
    if MAX_PAYLOAD_SIZE < len then .errored
    else if rest.length < len then .needMore
    else
      match decMessage (rest.take len) with
      | some (m, _) => .message m (rest.drop len)
      | none => .errored
  | _ => .needMore

/-- C8: for every valid `Message` whose serialized payload is at most
16 MiB, encoding succeeds and decoding the resulting frame yields
exactly the original message with nothing left in the buffer — the
frame codec round-trips every message it can encode. -/
theorem C8_frame_roundtrip (m : Message) (hwf : MsgWF m)
    (hlen : (encMessage m).length ≤ MAX_PAYLOAD_SIZE) :
    ∃ frame, frameEncode m = some frame ∧ frameDecode frame = .message m [] := by
  refine ⟨be32 (encMessage m).length ++ encMessage m, ?_, ?_⟩
  · unfold frameEncode
    rw [if_neg (by unfold MAX_PAYLOAD_SIZE at hlen ⊢ ; omega)]
  · have hmax : MAX_PAYLOAD_SIZE = 16777216 := rfl
    have hrec : (((encMessage m).length / 16777216 % 256 * 256 +
        (encMessage m).length / 65536 % 256) * 256 +
        (encMessage m).length / 256 % 256) * 256 + (encMessage m).length % 256 =
        (encMessage m).length := by
      rw [hmax] at hlen
      omega
    show frameDecode ((encMessage m).length / 16777216 % 256 ::
      (encMessage m).length / 65536 % 256 :: (encMessage m).length / 256 % 256 ::
      (encMessage m).length % 256 :: encMessage m) = FrameOutcome.message m []
    simp only [frameDecode, hrec]
    rw [if_neg (by rw [hmax] ; omega), if_neg (by omega), List.take_length,
      decMessage_enc m hwf, List.drop_length]

/-- Witness for C8 at the concrete message `paste{id:7, session:[115]}`. -/
theorem C8_frame_roundtrip_witness :
    ∃ frame, frameEncode (Message.paste 7 [115]) = some frame ∧
      frameDecode frame = .message (Message.paste 7 [115]) [] := by
  have hwf : MsgWF (Message.paste 7 [115]) := by
    refine ⟨by decide, ?_⟩
    show [115].length < 2 ^ 32
    decide
  have hlen : (encMessage (Message.paste 7 [115])).length ≤ MAX_PAYLOAD_SIZE := by
    decide
  exact C8_frame_roundtrip (Message.paste 7 [115]) hwf hlen

end Clippy
